import Mathlib

/-!
Verification development for the youtube service of feed-master
(app/youtube/service.go).

The Go code is shallowly embedded as pure Lean functions.  External
collaborators (ChannelService, DownloaderService, StoreService,
RSSFileStore, the filesystem and the clock) are modelled as a record of
oracle functions: each collaborator method becomes a function from its
arguments to the value-and-error pair the Go call returns.  Within one
tick every collaborator call site is reached at most once per argument
tuple, so deterministic oracle functions model one tick faithfully.

Every collaborator invocation and every `log.Printf("[WARN] ...")`
statement of the source is recorded in an event trace, so that claims
about "collaborator X is (not) invoked" and "the error is logged" are
statements about trace membership.  `log.Printf("[INFO] ...")` calls
are not traced: no claim refers to them.

Timestamps (time.Time) are modelled as integers counting seconds;
durations likewise (time.Hour*24 becomes 86400).  Go errors are
modelled by their message strings; `errors.Wrap(err, msg)` produces
"msg: err", mirroring pkg/errors message chaining.
-/

namespace Youtube

/-- Go errors are modelled by their message strings. -/
abbrev Err := String

/-- Message chaining of pkg/errors `errors.Wrap` / `errors.Wrapf`. -/
def wrap (msg cause : Err) : Err := msg ++ ": " ++ cause

/-- ytfeed.Type: the kind of a configured feed (channel video feed or playlist). -/
inductive YTType where
  | video
  | playlist
deriving DecidableEq, Repr

/-- ytfeed.Entry: one downloadable item as produced by the listing collaborator.
Fields are those of the source entry that service.go reads or writes:
ChannelID, VideoID, Title, Published, File, Author.Name, Author.URI,
Link.Href, Media.Description. -/
structure Entry where
  channelID : String
  videoID : String
  title : String
  published : Int
  file : String
  authorName : String
  authorURI : String
  linkHref : String
  description : String
deriving DecidableEq, Repr

/-- FeedInfo: per-feed configuration (service.go lines 39-45). -/
structure FeedInfo where
  name : String
  id : String
  type : YTType
  keep : Nat
  language : String
deriving DecidableEq, Repr

/-- The configuration part of Service (service.go lines 27-36); the
collaborator fields live in `Oracles`.  CheckDuration only drives the
ticker and does not affect what one tick does. -/
structure Service where
  feeds : List FeedInfo
  keepPerChannel : Nat
  rootURL : String

/-- rssfeed.Item as populated by RSSFeed (service.go lines 120-133). -/
structure Item where
  title : String
  description : String
  link : String
  pubDate : String
  guid : String
  author : String
  enclosureURL : String
  enclosureType : String
  enclosureLength : Nat
  dt : Int
deriving DecidableEq, Repr

/-- rssfeed.Rss2 as populated by RSSFeed (service.go lines 136-149). -/
structure Rss2 where
  version : String
  items : List Item
  title : String
  description : String
  link : String
  pubDate : String
  lastBuildDate : String
  language : String
deriving DecidableEq, Repr

/-- The external collaborators of the service, one oracle function per
method, returning exactly what the Go call returns.  Go's multi-value
returns with an error become pairs with an `Option Err` component when
the Go caller reads the value even alongside an error (Store.Exist,
Store.CheckProcessed, Store.RemoveOld), and `Except Err` results when
the value is only used on success.  `osStat` returns the file size or
`none` for a stat error; `sha1hex` is the hex SHA-1 digest of
crypto/sha1 (abstract here: no claim depends on the digest values);
`fmtTime` renders a timestamp in time.RFC822Z; `now` is the tick's
clock reading. -/
structure Oracles where
  channelGet : String → YTType → Except Err (List Entry)
  exist : Entry → Bool × Option Err
  checkProcessed : Entry → Bool × Int × Option Err
  downGet : String → String → Except Err String
  save : Entry → Except Err Bool
  setProcessed : Entry → Option Err
  removeOld : String → Nat → List String × Option Err
  osRemove : String → Option Err
  load : String → Nat → Except Err (List Entry)
  osStat : String → Option Nat
  rssSave : String → String → Option Err
  xmlMarshal : Rss2 → Except Err String
  fmtTime : Int → String
  sha1hex : String → String
  now : Int

/-- One traced effect: a collaborator/filesystem call or a [WARN] log line
of service.go.  Constructor names follow the call sites. -/
inductive Event where
  | channelGet (chanID : String) (t : YTType)
  | storeExist (e : Entry)
  | storeCheckProcessed (e : Entry)
  | downGet (videoID fname : String)
  | storeSave (e : Entry)
  | storeSetProcessed (e : Entry)
  | storeRemoveOld (chanID : String) (keep : Nat)
  | osRemove (f : String)
  | storeLoad (chanID : String) (max : Nat)
  | osStat (f : String)
  | rssSave (feedID doc : String)
  | warnChannelGet (chanID : String)
  | warnCheckProcessed (videoID : String)
  | warnDownload (videoID : String)
  | warnDupSave (e : Entry)
  | warnSetProcessed (videoID : String)
  | warnRemoveMeta (chanID : String)
  | warnRemoveFile (f : String)
  | warnFileSize (f : String)
  | warnRSSGen (name : String)
  | warnRSSSave (name : String)
deriving DecidableEq, Repr

/-- stats (service.go lines 300-307). -/
structure Stats where
  entries : Nat
  processed : Nat
  added : Nat
  removed : Nat
  ignored : Nat
  skipped : Nat
deriving DecidableEq, Repr

def zeroStats : Stats :=
  { entries := 0, processed := 0, added := 0, removed := 0, ignored := 0, skipped := 0 }

def Stats.add (a b : Stats) : Stats :=
  { entries := a.entries + b.entries, processed := a.processed + b.processed,
    added := a.added + b.added, removed := a.removed + b.removed,
    ignored := a.ignored + b.ignored, skipped := a.skipped + b.skipped }

/-- The per-entry-loop portion of the counters: `processed` is tracked by
the loop variable and folded into the stats only after the loop
(service.go line 238), and `removed` only in the changed-branch. -/
structure EStats where
  entries : Nat
  added : Nat
  ignored : Nat
  skipped : Nat
deriving DecidableEq, Repr

def zeroEStats : EStats := { entries := 0, added := 0, ignored := 0, skipped := 0 }

def bumpEntries (st : EStats) : EStats := { st with entries := st.entries + 1 }
def bumpSkipped (st : EStats) : EStats := { st with skipped := st.skipped + 1 }
def bumpIgnored (st : EStats) : EStats := { st with ignored := st.ignored + 1 }
def bumpAdded (st : EStats) : EStats := { st with added := st.added + 1 }

/-- Result of the per-entry loop of procChannels for one feed: either the
loop ran to completion/break carrying the loop state, or a fatal error
aborted it.  Both carry the trace of effects so far. -/
inductive LoopRes where
  | ok (processed : Nat) (changed : Bool) (st : EStats) (tr : List Event)
  | fail (er : Err) (tr : List Event)
deriving DecidableEq, Repr

/-- Prepend events to the trace of a loop result. -/
def LoopRes.pre (evs : List Event) : LoopRes → LoopRes
  | .ok p c st tr => .ok p c st (evs ++ tr)
  | .fail er tr => .fail er (evs ++ tr)

def LoopRes.trace : LoopRes → List Event
  | .ok _ _ _ tr => tr
  | .fail _ tr => tr

/-- Service.keep (service.go lines 284-290): the per-feed override when
positive, otherwise the global default. -/
def Service.keep (S : Service) (fi : FeedInfo) : Nat :=
  if fi.keep > 0 then fi.keep else S.keepPerChannel

/-- Go path.Base for the slash-separated paths stored in Entry.File. -/
def pathBase (p : String) : String :=
  if p = "" then "." else
    match ((p.splitOn "/").filter (fun s => s ≠ "")).getLast? with
    | some b => b
    | none => "/"

/-- Helper for Go strings.Contains: does `sub` occur inside `s`? -/
def strContainsAux (sub : List Char) : List Char → Bool
  | [] => sub.isEmpty
  | c :: cs => sub.isPrefixOf (c :: cs) || strContainsAux sub cs

/-- Go strings.Contains s sub. -/
def goContains (s sub : String) : Bool := strContainsAux sub.data s.data

/-- Stands for Go's "%+v" dump of an entry inside the fatal save error
message; only the message's dependence on the entry matters to any
claim, not its exact rendering. -/
def entryDump (e : Entry) : String := e.channelID ++ "::" ++ e.videoID

/-- Service.makeFileName (service.go lines 292-298): the hex SHA-1 digest
of "channelID::videoID".  The Go code falls back to a random UUID when
`h.Write` errors, but hash.Hash.Write is documented never to return an
error, so the fallback is unreachable and the model omits it. -/
def makeFileName (sha1hex : String → String) (e : Entry) : String :=
  sha1hex (e.channelID ++ "::" ++ e.videoID)

/-- 24 hours in seconds (time.Hour * 24 at service.go line 217). -/
def day : Int := 86400

/-- The published-timestamp normalization of service.go lines 215-219:
reset to now when published less than 24h before now (time.Since
returns now - published, so every future timestamp also resets). -/
def resetPublished (now pub : Int) : Int :=
  if now - pub < day then now else pub

/-- The mutation of a freshly downloaded entry (service.go lines 213-223):
assign the downloaded file, normalize the published timestamp, and
prefix the title with the feed name when the title does not already
contain it. -/
def mutateEntry (now : Int) (fi : FeedInfo) (e : Entry) (file : String) : Entry :=
  let e1 : Entry := { e with file := file }
  let e2 : Entry := { e1 with published := resetPublished now e1.published }
  if goContains e2.title fi.name then e2
  else { e2 with title := fi.name ++ ": " ++ e2.title }

/-- The unreachable abort of service.go lines 181-183: the code tests the
listing error `err` (always nil inside the loop) and would wrap `exErr`
from Store.Exist. -/
def deadExistErr (O : Oracles) (e : Entry) : Err :=
  match (O.exist e).2 with
  | some exErr => wrap ("failed to check if entry " ++ e.videoID ++ " exists") exErr
  | none => ""

/-- The [WARN] log for a CheckProcessed lookup error (service.go line 195). -/
def cpWarn (cpe : Option Err) (videoID : String) : List Event :=
  match cpe with
  | some _ => [Event.warnCheckProcessed videoID]
  | none => []

/-- Events of the two duplicate checks for one entry: Store.Exist is
called, then Store.CheckProcessed, whose error (if any) is logged.
A Store.Exist error produces no log line in the source. -/
def checkEvents (O : Oracles) (e : Entry) : List Event :=
  [Event.storeExist e, Event.storeCheckProcessed e] ++
    cpWarn (O.checkProcessed e).2.2 e.videoID

/-- The [WARN] log for a SetProcessed failure (service.go lines 232-234). -/
def setProcWarn (O : Oracles) (e2 : Entry) : List Event :=
  match O.setProcessed e2 with
  | some _ => [Event.warnSetProcessed e2.videoID]
  | none => []

/-- The download-and-persist tail of one loop iteration for a new entry
(service.go lines 203-236), parametric in the continuation `k` that
processes the remaining entries with updated loop state:
download (failure: warn, count ignored, continue un-handled), mutate,
save (failure: fatal; non-inserted: warn), mark changed, set processed
(failure: warn), count added. -/
def procNewEntry (S : Service) (O : Oracles) (fi : FeedInfo) (e : Entry)
    (k : Nat → Bool → EStats → LoopRes) (p : Nat) (c : Bool) (st1 : EStats) : LoopRes :=
  match O.downGet e.videoID (makeFileName O.sha1hex e) with
  | .error _ =>
      (k p c (bumpIgnored st1)).pre
        [Event.downGet e.videoID (makeFileName O.sha1hex e), Event.warnDownload e.videoID]
  | .ok file =>
      match O.save (mutateEntry O.now fi e file) with
      | .error saveErr =>
          .fail (wrap ("failed to save entry " ++ entryDump (mutateEntry O.now fi e file)) saveErr)
            [Event.downGet e.videoID (makeFileName O.sha1hex e),
             Event.storeSave (mutateEntry O.now fi e file)]
      | .ok okFlag =>
          (k (p + 1) true (bumpAdded st1)).pre
            ([Event.downGet e.videoID (makeFileName O.sha1hex e),
              Event.storeSave (mutateEntry O.now fi e file)] ++
             (if okFlag then [] else [Event.warnDupSave (mutateEntry O.now fi e file)]) ++
             [Event.storeSetProcessed (mutateEntry O.now fi e file)] ++
             setProcWarn O (mutateEntry O.now fi e file))

/-- The per-entry loop of procChannels (service.go lines 171-237) for the
remaining entry list, carrying the loop state (processed counter,
changed flag, counters).  `goErr` is the value of the Go variable `err`
inside the loop: the listing error, necessarily nil whenever the loop
body runs, kept here because line 181 tests it (a dead abort branch). -/
def procEntries (S : Service) (O : Oracles) (fi : FeedInfo) (goErr : Option Err) :
    List Entry → Nat → Bool → EStats → LoopRes
  | [], p, c, st => .ok p c st []
  | e :: rest, p, c, st =>
    if p ≥ S.keep fi then .ok p c (bumpEntries st) []
    else
      match goErr with
      | some _ => .fail (deadExistErr O e) [Event.storeExist e]
      | none =>
        if (O.exist e).1 then
          (procEntries S O fi goErr rest (p + 1) c (bumpSkipped (bumpEntries st))).pre
            [Event.storeExist e]
        else
          match (O.checkProcessed e).2.2, (O.checkProcessed e).1 with
          | none, true =>
              (procEntries S O fi goErr rest (p + 1) c (bumpSkipped (bumpEntries st))).pre
                (checkEvents O e)
          | _, _ =>
              (procNewEntry S O fi e
                (fun q d su => procEntries S O fi goErr rest q d su) p c (bumpEntries st)).pre
                (checkEvents O e)

/-- One rendered item of RSSFeed (service.go lines 108-133). -/
def itemOf (S : Service) (O : Oracles) (e : Entry) : Item :=
  { title := e.title, description := e.description, link := e.linkHref,
    pubDate := O.fmtTime e.published,
    guid := e.channelID ++ "::" ++ e.videoID,
    author := e.authorName,
    enclosureURL := S.rootURL ++ "/" ++ pathBase e.file,
    enclosureType := "audio/mpeg",
    enclosureLength := (O.osStat e.file).getD 0,
    dt := O.now }

/-- The effects of building one item: the os.Stat call and its warning on
failure (service.go lines 113-118). -/
def itemEvents (O : Oracles) (e : Entry) : List Event :=
  [Event.osStat e.file] ++
    (match O.osStat e.file with
     | none => [Event.warnFileSize e.file]
     | some _ => [])

/-- The Rss2 value RSSFeed builds for a nonempty entry list (service.go
lines 136-149, including the playlist link override). -/
def rssOf (S : Service) (O : Oracles) (fi : FeedInfo) (e0 : Entry) (es : List Entry) : Rss2 :=
  { version := "2.0", items := (e0 :: es).map (itemOf S O), title := fi.name,
    description := "generated by feed-master",
    link := if fi.type = YTType.playlist
            then "https://www.youtube.com/playlist?list=" ++ fi.id
            else e0.authorURI,
    pubDate := (itemOf S O e0).pubDate,
    lastBuildDate := O.fmtTime O.now,
    language := fi.language }

/-- The effects of RSSFeed: its Store.Load call plus the per-entry item
building effects. -/
def rssEvents (O : Oracles) (fi : FeedInfo) (kp : Nat) (entries : List Entry) : List Event :=
  [Event.storeLoad fi.id kp] ++ (entries.map (itemEvents O)).flatten

/-- Service.RSSFeed (service.go lines 97-157): load up to keep entries;
zero entries yield the empty document with no error; otherwise build
the Rss2 value and marshal it. -/
def RSSFeed (S : Service) (O : Oracles) (fi : FeedInfo) : Except Err String × List Event :=
  match O.load fi.id (S.keep fi) with
  | .error er => (.error (wrap "failed to get channel entries" er),
      [Event.storeLoad fi.id (S.keep fi)])
  | .ok [] => (.ok "", [Event.storeLoad fi.id (S.keep fi)])
  | .ok (e0 :: es) =>
      match O.xmlMarshal (rssOf S O fi e0 es) with
      | .error er => (.error (wrap "failed to marshal rss" er),
          rssEvents O fi (S.keep fi) (e0 :: es))
      | .ok b => (.ok b, rssEvents O fi (S.keep fi) (e0 :: es))

/-- The file-deletion loop of removeOld (service.go lines 273-281):
attempt os.Remove on every listed file; a failure is logged and does
not stop the loop; count the successful removals. -/
def removeFiles (O : Oracles) : List String → Nat × List Event
  | [] => (0, [])
  | f :: fs =>
      match O.osRemove f with
      | some _ => ((removeFiles O fs).1,
          [Event.osRemove f, Event.warnRemoveFile f] ++ (removeFiles O fs).2)
      | none => ((removeFiles O fs).1 + 1,
          [Event.osRemove f] ++ (removeFiles O fs).2)

/-- Service.removeOld (service.go lines 265-282): ask the store to drop
all but keep+1 entries; even on a metadata error the returned file list
is processed; delete each file best-effort; return the removed count. -/
def removeOld (S : Service) (O : Oracles) (fi : FeedInfo) : Nat × List Event :=
  ((removeFiles O (O.removeOld fi.id (S.keep fi + 1)).1).1,
   [Event.storeRemoveOld fi.id (S.keep fi + 1)] ++
     (match (O.removeOld fi.id (S.keep fi + 1)).2 with
      | some _ => [Event.warnRemoveMeta fi.id]
      | none => []) ++
     (removeFiles O (O.removeOld fi.id (S.keep fi + 1)).1).2)

/-- Result of processing one feed inside procChannels: its stats
contribution, its changed flag, and its trace; or the fatal abort. -/
inductive FeedRes where
  | ok (st : Stats) (changed : Bool) (tr : List Event)
  | fail (er : Err) (tr : List Event)
deriving DecidableEq, Repr

def FeedRes.trace : FeedRes → List Event
  | .ok _ _ tr => tr
  | .fail _ tr => tr

def FeedRes.stats : FeedRes → Stats
  | .ok st _ _ => st
  | .fail _ _ => zeroStats

def FeedRes.changed : FeedRes → Bool
  | .ok _ c _ => c
  | .fail _ _ => false

def FeedRes.isOk : FeedRes → Bool
  | .ok _ _ _ => true
  | .fail _ _ => false

/-- One iteration of the feed loop of procChannels (service.go lines
163-253): list the feed (failure: warn and move on), run the entry
loop, fold the processed counter into the stats, and--when the feed
changed--trim, rebuild the feed document and hand it to the publish
collaborator (render and publish failures are only logged). -/
def procFeed (S : Service) (O : Oracles) (fi : FeedInfo) : FeedRes :=
  match O.channelGet fi.id fi.type with
  | .error _ => .ok zeroStats false [Event.channelGet fi.id fi.type, Event.warnChannelGet fi.id]
  | .ok entries =>
    match procEntries S O fi none entries 0 false zeroEStats with
    | .fail er trL => .fail er ([Event.channelGet fi.id fi.type] ++ trL)
    | .ok p2 c2 st2 trL =>
      let d : Stats := { entries := st2.entries, processed := p2, added := st2.added,
                         removed := 0, ignored := st2.ignored, skipped := st2.skipped }
      if c2 then
        match (RSSFeed S O fi).1 with
        | .error _ =>
            .ok { d with removed := (removeOld S O fi).1 } true
              ([Event.channelGet fi.id fi.type] ++ trL ++ (removeOld S O fi).2 ++
               (RSSFeed S O fi).2 ++ [Event.warnRSSGen fi.name])
        | .ok doc =>
            match O.rssSave fi.id doc with
            | some _ =>
                .ok { d with removed := (removeOld S O fi).1 } true
                  ([Event.channelGet fi.id fi.type] ++ trL ++ (removeOld S O fi).2 ++
                   (RSSFeed S O fi).2 ++ [Event.rssSave fi.id doc, Event.warnRSSSave fi.name])
            | none =>
                .ok { d with removed := (removeOld S O fi).1 } true
                  ([Event.channelGet fi.id fi.type] ++ trL ++ (removeOld S O fi).2 ++
                   (RSSFeed S O fi).2 ++ [Event.rssSave fi.id doc])
      else .ok d false ([Event.channelGet fi.id fi.type] ++ trL)

/-- Result of one whole tick (procChannels): accumulated stats and trace,
or the fatal abort with the trace up to it. -/
inductive TickRes where
  | ok (st : Stats) (tr : List Event)
  | fail (er : Err) (tr : List Event)
deriving DecidableEq, Repr

def TickRes.trace : TickRes → List Event
  | .ok _ tr => tr
  | .fail _ tr => tr

def TickRes.stats : TickRes → Stats
  | .ok st _ => st
  | .fail _ _ => zeroStats

def TickRes.isOk : TickRes → Bool
  | .ok _ _ => true
  | .fail _ _ => false

/-- The feed loop of procChannels over the remaining feeds with the
accumulated stats and trace; a per-feed fatal error aborts the whole
tick at once (service.go lines 226 and 159-262). -/
def procChannelsAux (S : Service) (O : Oracles) : List FeedInfo → Stats → List Event → TickRes
  | [], acc, tr => .ok acc tr
  | fi :: rest, acc, tr =>
    match procFeed S O fi with
    | .fail er trF => .fail er (tr ++ trF)
    | .ok d _ trF => procChannelsAux S O rest (acc.add d) (tr ++ trF)

/-- Service.procChannels (service.go lines 159-262).  The closing
CountProcessed/Last calls only feed an [INFO] log line and are not
traced. -/
def procChannels (S : Service) (O : Oracles) : TickRes :=
  procChannelsAux S O S.feeds zeroStats []

/-- One pass of the Driver (Service.Do, service.go lines 70-94): run
procChannels and stop with the wrapped error on failure.  The ticker
repeats exactly this pass until cancellation, and any pass's error
stops the service the same way. -/
def Do (S : Service) (O : Oracles) : Except Err (Stats × List Event) :=
  match procChannels S O with
  | .fail er _ => .error (wrap "failed to process channels" er)
  | .ok st tr => .ok (st, tr)

/-! ## Trace classifiers and derived notions -/

/-- Events that the per-entry loop can emit. -/
def isEntryLoopEvent : Event → Bool
  | .storeExist _ => true
  | .storeCheckProcessed _ => true
  | .downGet _ _ => true
  | .storeSave _ => true
  | .storeSetProcessed _ => true
  | .warnCheckProcessed _ => true
  | .warnDownload _ => true
  | .warnDupSave _ => true
  | .warnSetProcessed _ => true
  | _ => false

/-- Events that the trimmer (removeOld) can emit. -/
def isTrimEvent : Event → Bool
  | .storeRemoveOld _ _ => true
  | .warnRemoveMeta _ => true
  | .osRemove _ => true
  | .warnRemoveFile _ => true
  | _ => false

/-- Events that rendering (RSSFeed) can emit. -/
def isRssGenEvent : Event → Bool
  | .storeLoad _ _ => true
  | .osStat _ => true
  | .warnFileSize _ => true
  | _ => false

/-- Is this one of the [WARN] log events? -/
def isWarnEvent : Event → Bool
  | .warnChannelGet _ => true
  | .warnCheckProcessed _ => true
  | .warnDownload _ => true
  | .warnDupSave _ => true
  | .warnSetProcessed _ => true
  | .warnRemoveMeta _ => true
  | .warnRemoveFile _ => true
  | .warnFileSize _ => true
  | .warnRSSGen _ => true
  | .warnRSSSave _ => true
  | _ => false

def isStoreSaveEv : Event → Bool
  | .storeSave _ => true
  | _ => false

/-- Did some Store.Save call happen in this trace? -/
def hasStoreSave (tr : List Event) : Bool := tr.any isStoreSaveEv

/-- Did a Store.Load call for this channel happen (i.e. was RSSFeed run)? -/
def hasStoreLoad (chanID : String) (tr : List Event) : Bool :=
  tr.any fun ev =>
    match ev with
    | .storeLoad cid _ => cid == chanID
    | _ => false

/-- Was a rendered document handed to RSSFileStore.Save for this feed? -/
def hasRssSave (feedID : String) (tr : List Event) : Bool :=
  tr.any fun ev =>
    match ev with
    | .rssSave fid _ => fid == feedID
    | _ => false

/-- Entry classified as a duplicate by service.go lines 180-201: the
existence bit is honored as returned, the processed bit only when the
lookup returned no error. -/
def dupPositiveB (O : Oracles) (e : Entry) : Bool :=
  (O.exist e).1 || ((O.checkProcessed e).2.2.isNone && (O.checkProcessed e).1)

def exceptIsOk (r : Except Err String) : Bool :=
  match r with
  | .ok _ => true
  | .error _ => false

/-- Modelled from the spec: the tick actually changed the channel's
retained set of stored entries, read off the tick's trace and the store
collaborator's answers: some Save call really inserted a new entry
("insertedNew" true), or the trim removed stored entries. -/
def retainedSetChangedB (O : Oracles) (chanID : String) (tr : List Event) : Bool :=
  tr.any fun ev =>
    match ev with
    | .storeSave e =>
        decide (e.channelID = chanID) &&
          (match O.save e with
           | .ok true => true
           | _ => false)
    | .storeRemoveOld cid k => decide (cid = chanID) && !(O.removeOld cid k).1.isEmpty
    | _ => false

/-- Modelled from the spec: "the entry's original publication timestamp is
within 24 hours of now", read symmetrically as a distance of less than
24 hours in either direction. -/
def specWithin24 (now pub : Int) : Bool := decide ((now - pub).natAbs < 86400)

/-! ## Loop invariants -/

theorem LoopRes.trace_pre (evs : List Event) (r : LoopRes) :
    (r.pre evs).trace = evs ++ r.trace := by
  cases r <;> rfl

@[simp] theorem bumpEntries_added (st : EStats) : (bumpEntries st).added = st.added := rfl
@[simp] theorem bumpEntries_skipped (st : EStats) : (bumpEntries st).skipped = st.skipped := rfl
@[simp] theorem bumpEntries_ignored (st : EStats) : (bumpEntries st).ignored = st.ignored := rfl
@[simp] theorem bumpEntries_entries (st : EStats) : (bumpEntries st).entries = st.entries + 1 := rfl
@[simp] theorem bumpSkipped_added (st : EStats) : (bumpSkipped st).added = st.added := rfl
@[simp] theorem bumpSkipped_skipped (st : EStats) : (bumpSkipped st).skipped = st.skipped + 1 := rfl
@[simp] theorem bumpSkipped_ignored (st : EStats) : (bumpSkipped st).ignored = st.ignored := rfl
@[simp] theorem bumpSkipped_entries (st : EStats) : (bumpSkipped st).entries = st.entries := rfl
@[simp] theorem bumpIgnored_added (st : EStats) : (bumpIgnored st).added = st.added := rfl
@[simp] theorem bumpIgnored_skipped (st : EStats) : (bumpIgnored st).skipped = st.skipped := rfl
@[simp] theorem bumpIgnored_ignored (st : EStats) : (bumpIgnored st).ignored = st.ignored + 1 := rfl
@[simp] theorem bumpIgnored_entries (st : EStats) : (bumpIgnored st).entries = st.entries := rfl
@[simp] theorem bumpAdded_added (st : EStats) : (bumpAdded st).added = st.added + 1 := rfl
@[simp] theorem bumpAdded_skipped (st : EStats) : (bumpAdded st).skipped = st.skipped := rfl
@[simp] theorem bumpAdded_ignored (st : EStats) : (bumpAdded st).ignored = st.ignored := rfl
@[simp] theorem bumpAdded_entries (st : EStats) : (bumpAdded st).entries = st.entries := rfl

theorem procNewEntry_counts (S : Service) (O : Oracles) (fi : FeedInfo) (e : Entry)
    (k : Nat → Bool → EStats → LoopRes) (K : Nat)
    (hk : ∀ q d su q2 d2 su2 tr2, k q d su = .ok q2 d2 su2 tr2 →
       q2 + su.added + su.skipped = q + su2.added + su2.skipped ∧ (q ≤ K → q2 ≤ K))
    (p : Nat) (c : Bool) (st1 : EStats) (hp : p < K)
    (p' : Nat) (c' : Bool) (st' : EStats) (tr : List Event)
    (h : procNewEntry S O fi e k p c st1 = .ok p' c' st' tr) :
    p' + st1.added + st1.skipped = p + st'.added + st'.skipped ∧ p' ≤ K := by
  unfold procNewEntry at h
  split at h
  · -- download error: warn, count ignored, continue un-handled
    cases hkr : k p c (bumpIgnored st1) with
    | fail er2 tr2 => rw [hkr] at h; simp [LoopRes.pre] at h
    | ok q2 d2 su2 tr2 =>
        rw [hkr] at h
        simp only [LoopRes.pre, LoopRes.ok.injEq] at h
        obtain ⟨rfl, rfl, rfl, rfl⟩ := h
        have h5 := hk p c (bumpIgnored st1) q2 d2 su2 tr2 hkr
        simp only [bumpIgnored_added, bumpIgnored_skipped] at h5
        exact ⟨h5.1, h5.2 (Nat.le_of_lt hp)⟩
  · -- download ok
    split at h
    · -- save error: fatal
      simp at h
    · -- save ok: count added, continue with processed+1
      cases hkr : k (p + 1) true (bumpAdded st1) with
      | fail er2 tr2 => rw [hkr] at h; simp [LoopRes.pre] at h
      | ok q2 d2 su2 tr2 =>
          rw [hkr] at h
          simp only [LoopRes.pre, LoopRes.ok.injEq] at h
          obtain ⟨rfl, rfl, rfl, rfl⟩ := h
          have h5 := hk (p + 1) true (bumpAdded st1) q2 d2 su2 tr2 hkr
          simp only [bumpAdded_added, bumpAdded_skipped] at h5
          exact ⟨by omega, h5.2 hp⟩

theorem procEntries_counts (S : Service) (O : Oracles) (fi : FeedInfo) (goErr : Option Err) :
    ∀ (l : List Entry) (p : Nat) (c : Bool) (st : EStats)
      (p' : Nat) (c' : Bool) (st' : EStats) (tr : List Event),
      procEntries S O fi goErr l p c st = .ok p' c' st' tr →
      p' + st.added + st.skipped = p + st'.added + st'.skipped ∧
        (p ≤ S.keep fi → p' ≤ S.keep fi) := by
  intro l
  induction l with
  | nil =>
      intro p c st p' c' st' tr h
      simp only [procEntries, LoopRes.ok.injEq] at h
      obtain ⟨rfl, rfl, rfl, rfl⟩ := h
      exact ⟨rfl, fun hp => hp⟩
  | cons e rest ih =>
      intro p c st p' c' st' tr h
      simp only [procEntries] at h
      split at h
      · -- break: processed already reached keep
        simp only [LoopRes.ok.injEq] at h
        obtain ⟨rfl, rfl, rfl, rfl⟩ := h
        exact ⟨by simp, fun hp => hp⟩
      · rename_i hbk
        have hplt : p < S.keep fi := Nat.lt_of_not_le hbk
        cases goErr with
        | some ge => simp at h
        | none =>
          simp only [] at h
          split at h
          · -- exists: skip
            cases hr : procEntries S O fi none rest (p + 1) c (bumpSkipped (bumpEntries st)) with
            | fail er2 tr2 => rw [hr] at h; simp [LoopRes.pre] at h
            | ok q2 d2 su2 tr2 =>
                rw [hr] at h
                simp only [LoopRes.pre, LoopRes.ok.injEq] at h
                obtain ⟨rfl, rfl, rfl, rfl⟩ := h
                have h5 := ih (p + 1) c (bumpSkipped (bumpEntries st)) q2 d2 su2 tr2 hr
                simp only [bumpSkipped_added, bumpSkipped_skipped, bumpEntries_added,
                  bumpEntries_skipped] at h5
                exact ⟨by omega, fun _ => h5.2 hplt⟩
          · -- not exists: check processed
            split at h
            · -- processed found with no error: skip
              cases hr : procEntries S O fi none rest (p + 1) c (bumpSkipped (bumpEntries st)) with
              | fail er2 tr2 => rw [hr] at h; simp [LoopRes.pre] at h
              | ok q2 d2 su2 tr2 =>
                  rw [hr] at h
                  simp only [LoopRes.pre, LoopRes.ok.injEq] at h
                  obtain ⟨rfl, rfl, rfl, rfl⟩ := h
                  have h5 := ih (p + 1) c (bumpSkipped (bumpEntries st)) q2 d2 su2 tr2 hr
                  simp only [bumpSkipped_added, bumpSkipped_skipped, bumpEntries_added,
                    bumpEntries_skipped] at h5
                  exact ⟨by omega, fun _ => h5.2 hplt⟩
            · -- new entry: download path
              cases hpn : procNewEntry S O fi e
                  (fun q d su => procEntries S O fi none rest q d su) p c (bumpEntries st) with
              | fail er2 tr2 => rw [hpn] at h; simp [LoopRes.pre] at h
              | ok q2 d2 su2 tr2 =>
                  rw [hpn] at h
                  simp only [LoopRes.pre, LoopRes.ok.injEq] at h
                  obtain ⟨rfl, rfl, rfl, rfl⟩ := h
                  have h5 := procNewEntry_counts S O fi e _ (S.keep fi)
                    (fun q d su q2 d2 su2 tr2 hq => ih q d su q2 d2 su2 tr2 hq)
                    p c (bumpEntries st) hplt q2 d2 su2 tr2 hpn
                  simp only [bumpEntries_added, bumpEntries_skipped] at h5
                  exact ⟨by omega, fun _ => h5.2⟩
@[simp] theorem LoopRes.trace_ok (p : Nat) (c : Bool) (st : EStats) (tr : List Event) :
    (LoopRes.ok p c st tr).trace = tr := rfl

@[simp] theorem LoopRes.trace_fail (er : Err) (tr : List Event) :
    (LoopRes.fail er tr).trace = tr := rfl

theorem mem_cpWarn (cpe : Option Err) (v : String) (ev : Event) (h : ev ∈ cpWarn cpe v) :
    ev = Event.warnCheckProcessed v := by
  cases cpe <;> simp [cpWarn] at h <;> simp [h]

theorem mem_checkEvents (O : Oracles) (e : Entry) (ev : Event) (h : ev ∈ checkEvents O e) :
    ev = Event.storeExist e ∨ ev = Event.storeCheckProcessed e ∨
      ev = Event.warnCheckProcessed e.videoID := by
  simp only [checkEvents, List.mem_append, List.mem_cons, List.mem_singleton] at h
  rcases h with (h | h) | h
  · exact Or.inl h
  · simp at h; exact Or.inr (Or.inl h)
  · exact Or.inr (Or.inr (mem_cpWarn _ _ _ h))

theorem mem_setProcWarn (O : Oracles) (e2 : Entry) (ev : Event) (h : ev ∈ setProcWarn O e2) :
    ev = Event.warnSetProcessed e2.videoID := by
  unfold setProcWarn at h
  cases hs : O.setProcessed e2 <;> rw [hs] at h <;> simp at h
  simp [h]

theorem hasStoreSave_append (a b : List Event) :
    hasStoreSave (a ++ b) = (hasStoreSave a || hasStoreSave b) := by
  simp [hasStoreSave, List.any_append]

theorem hasStoreSave_cons (ev : Event) (tr : List Event) :
    hasStoreSave (ev :: tr) = (isStoreSaveEv ev || hasStoreSave tr) := rfl

@[simp] theorem hasStoreSave_nil : hasStoreSave [] = false := rfl

@[simp] theorem hasStoreLoad_nil (fid : String) : hasStoreLoad fid [] = false := rfl

@[simp] theorem hasRssSave_nil (fid : String) : hasRssSave fid [] = false := rfl

theorem hasStoreLoad_cons (fid : String) (ev : Event) (tr : List Event) :
    hasStoreLoad fid (ev :: tr) =
      ((match ev with | Event.storeLoad cid _ => cid == fid | _ => false) ||
        hasStoreLoad fid tr) := rfl

theorem hasRssSave_cons (fid : String) (ev : Event) (tr : List Event) :
    hasRssSave fid (ev :: tr) =
      ((match ev with | Event.rssSave a _ => a == fid | _ => false) ||
        hasRssSave fid tr) := rfl

theorem hasStoreSave_checkEvents (O : Oracles) (e : Entry) :
    hasStoreSave (checkEvents O e) = false := by
  cases hc : (O.checkProcessed e).2.2 <;>
    simp [checkEvents, cpWarn, hc, hasStoreSave, isStoreSaveEv]

/-- Membership in the event list emitted by a successful
download-and-save, generic in the individual events. -/
theorem mem_dlOkEvents (a b c : Event) (w : List Event) (okFlag : Bool) (dup ev : Event)
    (h : ev ∈ [a, b] ++ (if okFlag then [] else [dup]) ++ [c] ++ w) :
    ev = a ∨ ev = b ∨ ev = dup ∨ ev = c ∨ ev ∈ w := by
  cases okFlag <;> simp at h <;> tauto

/-- Every event the per-entry loop emits is an entry-loop event (in
particular the loop never calls Store.Load, Store.RemoveOld, os.Remove
or RSSFileStore.Save). -/
theorem procNewEntry_class (S : Service) (O : Oracles) (fi : FeedInfo) (e : Entry)
    (k : Nat → Bool → EStats → LoopRes)
    (hk : ∀ q d su ev, ev ∈ (k q d su).trace → isEntryLoopEvent ev = true)
    (p : Nat) (c : Bool) (st1 : EStats) (ev : Event)
    (hev : ev ∈ (procNewEntry S O fi e k p c st1).trace) :
    isEntryLoopEvent ev = true := by
  unfold procNewEntry at hev
  split at hev
  · rw [LoopRes.trace_pre] at hev
    rcases List.mem_append.1 hev with h | h
    · simp only [List.mem_cons, List.not_mem_nil, or_false] at h
      rcases h with rfl | rfl <;> rfl
    · exact hk _ _ _ _ h
  · split at hev
    · simp only [LoopRes.trace_fail, List.mem_cons, List.not_mem_nil, or_false] at hev
      rcases hev with rfl | rfl <;> rfl
    · rw [LoopRes.trace_pre] at hev
      rcases List.mem_append.1 hev with h | h
      · rcases mem_dlOkEvents _ _ _ _ _ _ _ h with rfl | rfl | rfl | rfl | h
        · rfl
        · rfl
        · rfl
        · rfl
        · rw [mem_setProcWarn O _ _ h]; rfl
      · exact hk _ _ _ _ h

theorem procEntries_class (S : Service) (O : Oracles) (fi : FeedInfo) (goErr : Option Err) :
    ∀ (l : List Entry) (p : Nat) (c : Bool) (st : EStats) (ev : Event),
      ev ∈ (procEntries S O fi goErr l p c st).trace → isEntryLoopEvent ev = true := by
  intro l
  induction l with
  | nil => intro p c st ev hev; simp [procEntries] at hev
  | cons e rest ih =>
      intro p c st ev hev
      simp only [procEntries] at hev
      split at hev
      · simp at hev
      · cases goErr with
        | some ge =>
            simp only [LoopRes.trace_fail, List.mem_singleton] at hev
            simp [hev, isEntryLoopEvent]
        | none =>
          simp only [] at hev
          split at hev
          · rw [LoopRes.trace_pre] at hev
            rcases List.mem_append.1 hev with h | h
            · simp at h; simp [h, isEntryLoopEvent]
            · exact ih _ _ _ _ h
          · split at hev
            · rw [LoopRes.trace_pre] at hev
              rcases List.mem_append.1 hev with h | h
              · rcases mem_checkEvents O e ev h with h | h | h <;>
                  simp [h, isEntryLoopEvent]
              · exact ih _ _ _ _ h
            · rw [LoopRes.trace_pre] at hev
              rcases List.mem_append.1 hev with h | h
              · rcases mem_checkEvents O e ev h with h | h | h <;>
                  simp [h, isEntryLoopEvent]
              · exact procNewEntry_class S O fi e _
                  (fun q d su ev2 hev2 => ih q d su ev2 hev2) p c (bumpEntries st) ev h

/-- The loop's changed flag is set exactly when some Store.Save call was
reached (service.go line 231: set after every non-error Save). -/
theorem procNewEntry_changed (S : Service) (O : Oracles) (fi : FeedInfo) (e : Entry)
    (k : Nat → Bool → EStats → LoopRes)
    (hk : ∀ q d su q2 d2 su2 tr2, k q d su = .ok q2 d2 su2 tr2 →
       d2 = (d || hasStoreSave tr2))
    (p : Nat) (c : Bool) (st1 : EStats)
    (p' : Nat) (c' : Bool) (st' : EStats) (tr : List Event)
    (h : procNewEntry S O fi e k p c st1 = .ok p' c' st' tr) :
    c' = (c || hasStoreSave tr) := by
  unfold procNewEntry at h
  split at h
  · cases hkr : k p c (bumpIgnored st1) with
    | fail er2 tr2 => rw [hkr] at h; simp [LoopRes.pre] at h
    | ok q2 d2 su2 tr2 =>
        rw [hkr] at h
        simp only [LoopRes.pre, LoopRes.ok.injEq] at h
        obtain ⟨rfl, rfl, rfl, rfl⟩ := h
        have h5 := hk p c (bumpIgnored st1) q2 d2 su2 tr2 hkr
        simp [h5, hasStoreSave_append, hasStoreSave, isStoreSaveEv]
  · split at h
    · simp at h
    · cases hkr : k (p + 1) true (bumpAdded st1) with
      | fail er2 tr2 => rw [hkr] at h; simp [LoopRes.pre] at h
      | ok q2 d2 su2 tr2 =>
          rw [hkr] at h
          simp only [LoopRes.pre, LoopRes.ok.injEq] at h
          obtain ⟨rfl, rfl, rfl, rfl⟩ := h
          have h5 := hk (p + 1) true (bumpAdded st1) q2 d2 su2 tr2 hkr
          simp [h5, hasStoreSave_append, hasStoreSave, isStoreSaveEv]

theorem procEntries_changed (S : Service) (O : Oracles) (fi : FeedInfo) (goErr : Option Err) :
    ∀ (l : List Entry) (p : Nat) (c : Bool) (st : EStats)
      (p' : Nat) (c' : Bool) (st' : EStats) (tr : List Event),
      procEntries S O fi goErr l p c st = .ok p' c' st' tr →
      c' = (c || hasStoreSave tr) := by
  intro l
  induction l with
  | nil =>
      intro p c st p' c' st' tr h
      simp only [procEntries, LoopRes.ok.injEq] at h
      obtain ⟨rfl, rfl, rfl, rfl⟩ := h
      simp [hasStoreSave]
  | cons e rest ih =>
      intro p c st p' c' st' tr h
      simp only [procEntries] at h
      split at h
      · simp only [LoopRes.ok.injEq] at h
        obtain ⟨rfl, rfl, rfl, rfl⟩ := h
        simp [hasStoreSave]
      · cases goErr with
        | some ge => simp at h
        | none =>
          simp only [] at h
          split at h
          · cases hr : procEntries S O fi none rest (p + 1) c (bumpSkipped (bumpEntries st)) with
            | fail er2 tr2 => rw [hr] at h; simp [LoopRes.pre] at h
            | ok q2 d2 su2 tr2 =>
                rw [hr] at h
                simp only [LoopRes.pre, LoopRes.ok.injEq] at h
                obtain ⟨rfl, rfl, rfl, rfl⟩ := h
                have h5 := ih (p + 1) c (bumpSkipped (bumpEntries st)) q2 d2 su2 tr2 hr
                simp [h5, hasStoreSave_append, hasStoreSave, isStoreSaveEv]
          · split at h
            · cases hr : procEntries S O fi none rest (p + 1) c
                  (bumpSkipped (bumpEntries st)) with
              | fail er2 tr2 => rw [hr] at h; simp [LoopRes.pre] at h
              | ok q2 d2 su2 tr2 =>
                  rw [hr] at h
                  simp only [LoopRes.pre, LoopRes.ok.injEq] at h
                  obtain ⟨rfl, rfl, rfl, rfl⟩ := h
                  have h5 := ih (p + 1) c (bumpSkipped (bumpEntries st)) q2 d2 su2 tr2 hr
                  simp [h5, hasStoreSave_append, hasStoreSave_checkEvents]
            · cases hpn : procNewEntry S O fi e
                  (fun q d su => procEntries S O fi none rest q d su) p c (bumpEntries st) with
              | fail er2 tr2 => rw [hpn] at h; simp [LoopRes.pre] at h
              | ok q2 d2 su2 tr2 =>
                  rw [hpn] at h
                  simp only [LoopRes.pre, LoopRes.ok.injEq] at h
                  obtain ⟨rfl, rfl, rfl, rfl⟩ := h
                  have h5 := procNewEntry_changed S O fi e _
                    (fun q d su q2 d2 su2 tr2 hq => ih q d su q2 d2 su2 tr2 hq)
                    p c (bumpEntries st) q2 d2 su2 tr2 hpn
                  simp [h5, hasStoreSave_append, hasStoreSave_checkEvents]

/-- Every Downloader.Get invocation of the per-entry loop is for an entry
of the listed entries that both duplicate signals classified as new. -/
theorem procNewEntry_downGet (S : Service) (O : Oracles) (fi : FeedInfo) (e : Entry)
    (k : Nat → Bool → EStats → LoopRes) (P : String → String → Prop)
    (hk : ∀ q d su v f, Event.downGet v f ∈ (k q d su).trace → P v f)
    (p : Nat) (c : Bool) (st1 : EStats) (v f : String)
    (hev : Event.downGet v f ∈ (procNewEntry S O fi e k p c st1).trace) :
    v = e.videoID ∨ P v f := by
  unfold procNewEntry at hev
  split at hev
  · rw [LoopRes.trace_pre] at hev
    rcases List.mem_append.1 hev with h | h
    · simp only [List.mem_cons, List.not_mem_nil, or_false] at h
      rcases h with h | h
      · exact Or.inl (Event.downGet.inj h).1
      · exact absurd h (by simp)
    · exact Or.inr (hk _ _ _ _ _ h)
  · split at hev
    · simp only [LoopRes.trace_fail, List.mem_cons, List.not_mem_nil, or_false] at hev
      rcases hev with h | h
      · exact Or.inl (Event.downGet.inj h).1
      · exact absurd h (by simp)
    · rw [LoopRes.trace_pre] at hev
      rcases List.mem_append.1 hev with h | h
      · rcases mem_dlOkEvents _ _ _ _ _ _ _ h with h | h | h | h | h
        · exact Or.inl (Event.downGet.inj h).1
        · exact absurd h (by simp)
        · exact absurd h (by simp)
        · exact absurd h (by simp)
        · exact absurd (mem_setProcWarn O _ _ h) (by simp)
      · exact Or.inr (hk _ _ _ _ _ h)

theorem procEntries_downGet (S : Service) (O : Oracles) (fi : FeedInfo) (goErr : Option Err) :
    ∀ (l : List Entry) (p : Nat) (c : Bool) (st : EStats) (v f : String),
      Event.downGet v f ∈ (procEntries S O fi goErr l p c st).trace →
      ∃ e2 ∈ l, e2.videoID = v ∧ dupPositiveB O e2 = false := by
  intro l
  induction l with
  | nil => intro p c st v f hev; simp [procEntries] at hev
  | cons e rest ih =>
      intro p c st v f hev
      simp only [procEntries] at hev
      split at hev
      · simp at hev
      · cases goErr with
        | some ge => simp [LoopRes.trace_fail] at hev
        | none =>
          simp only [] at hev
          split at hev
          · rw [LoopRes.trace_pre] at hev
            rcases List.mem_append.1 hev with h | h
            · simp at h
            · obtain ⟨e2, he2, hv, hd⟩ := ih _ _ _ _ _ h
              exact ⟨e2, List.mem_cons_of_mem _ he2, hv, hd⟩
          · rename_i hex
            split at hev
            · rw [LoopRes.trace_pre] at hev
              rcases List.mem_append.1 hev with h | h
              · rcases mem_checkEvents O e _ h with h | h | h <;> simp at h
              · obtain ⟨e2, he2, hv, hd⟩ := ih _ _ _ _ _ h
                exact ⟨e2, List.mem_cons_of_mem _ he2, hv, hd⟩
            · rename_i hncp
              rw [LoopRes.trace_pre] at hev
              rcases List.mem_append.1 hev with h | h
              · rcases mem_checkEvents O e _ h with h | h | h <;> simp at h
              · have := procNewEntry_downGet S O fi e _
                  (fun v2 f2 => ∃ e2 ∈ rest, e2.videoID = v2 ∧ dupPositiveB O e2 = false)
                  (fun q d su v2 f2 hq => ih q d su v2 f2 hq) p c (bumpEntries st) v f h
                rcases this with h | ⟨e2, he2, hv, hd⟩
                · refine ⟨e, List.mem_cons_self e rest, h.symm, ?_⟩
                  simp only [dupPositiveB]
                  simp only [Bool.not_eq_true] at hex
                  rw [Bool.or_eq_false_iff]
                  refine ⟨hex, ?_⟩
                  cases hc2 : (O.checkProcessed e).2.2 with
                  | some pe => simp [hc2]
                  | none =>
                      cases hc1 : (O.checkProcessed e).1 with
                      | false => simp [hc2, hc1]
                      | true => exact (hncp hc2 hc1).elim
                · exact ⟨e2, List.mem_cons_of_mem _ he2, hv, hd⟩

/-! ## Trimmer lemmas -/

/-- Every file the store listed gets an os.Remove attempt, regardless of
earlier failures. -/
theorem removeFiles_attempts (O : Oracles) :
    ∀ (files : List String) (f : String), f ∈ files →
      Event.osRemove f ∈ (removeFiles O files).2 := by
  intro files
  induction files with
  | nil => intro f hf; simp at hf
  | cons g gs ih =>
      intro f hf
      rcases List.mem_cons.1 hf with rfl | hf
      · unfold removeFiles
        cases hr : O.osRemove f <;> simp
      · unfold removeFiles
        cases hr : O.osRemove g <;> simp [ih f hf]

/-- The returned removal count is the number of successful deletions. -/
theorem removeFiles_count (O : Oracles) :
    ∀ files : List String,
      (removeFiles O files).1 =
        (files.filter (fun f => (O.osRemove f).isNone)).length := by
  intro files
  induction files with
  | nil => rfl
  | cons g gs ih =>
      unfold removeFiles
      cases hr : O.osRemove g <;> simp [List.filter, hr, ih]

theorem removeFiles_class (O : Oracles) :
    ∀ (files : List String) (ev : Event), ev ∈ (removeFiles O files).2 →
      isTrimEvent ev = true := by
  intro files
  induction files with
  | nil => intro ev hev; simp [removeFiles] at hev
  | cons g gs ih =>
      intro ev hev
      unfold removeFiles at hev
      cases hr : O.osRemove g <;> rw [hr] at hev <;>
        simp only [List.mem_cons, List.not_mem_nil, or_false, List.mem_append] at hev
      · rcases hev with rfl | hev
        · rfl
        · exact ih ev hev
      · rcases hev with (rfl | rfl) | hev
        · rfl
        · rfl
        · exact ih ev hev

theorem removeOld_class (S : Service) (O : Oracles) (fi : FeedInfo) (ev : Event)
    (hev : ev ∈ (removeOld S O fi).2) : isTrimEvent ev = true := by
  unfold removeOld at hev
  simp only [List.mem_append, List.mem_cons, List.not_mem_nil, or_false] at hev
  rcases hev with (rfl | hev) | hev
  · rfl
  · cases hr : (O.removeOld fi.id (S.keep fi + 1)).2 <;> rw [hr] at hev <;> simp at hev
    subst hev; rfl
  · exact removeFiles_class O _ ev hev

theorem removeOld_asks (S : Service) (O : Oracles) (fi : FeedInfo) :
    Event.storeRemoveOld fi.id (S.keep fi + 1) ∈ (removeOld S O fi).2 := by
  unfold removeOld
  simp

/-! ## Renderer lemmas -/

theorem itemEvents_class (O : Oracles) (e : Entry) (ev : Event)
    (hev : ev ∈ itemEvents O e) : isRssGenEvent ev = true := by
  unfold itemEvents at hev
  cases hs : O.osStat e.file <;> rw [hs] at hev <;> simp at hev
  · rcases hev with rfl | rfl <;> rfl
  · subst hev; rfl

theorem mem_rssEvents (O : Oracles) (fi : FeedInfo) (kp : Nat) (entries : List Entry)
    (ev : Event) (hev : ev ∈ rssEvents O fi kp entries) : isRssGenEvent ev = true := by
  unfold rssEvents at hev
  simp only [List.mem_append, List.mem_singleton, List.mem_flatten] at hev
  rcases hev with rfl | ⟨l2, hl2, hevl⟩
  · rfl
  · obtain ⟨e2, _, rfl⟩ := List.mem_map.1 hl2
    exact itemEvents_class O e2 ev hevl

theorem RSSFeed_class (S : Service) (O : Oracles) (fi : FeedInfo) (ev : Event)
    (hev : ev ∈ (RSSFeed S O fi).2) : isRssGenEvent ev = true := by
  unfold RSSFeed at hev
  split at hev
  · simp at hev; subst hev; rfl
  · simp at hev; subst hev; rfl
  · split at hev
    · exact mem_rssEvents O fi (S.keep fi) _ ev hev
    · exact mem_rssEvents O fi (S.keep fi) _ ev hev

/-- RSSFeed always records its Store.Load call for the feed. -/
theorem RSSFeed_loads (S : Service) (O : Oracles) (fi : FeedInfo) :
    Event.storeLoad fi.id (S.keep fi) ∈ (RSSFeed S O fi).2 := by
  unfold RSSFeed
  split
  · simp
  · simp
  · split <;> simp [rssEvents]

/-! ## Feed-level lemmas -/

theorem hasStoreSave_eq_false (tr : List Event) (cls : Event → Bool)
    (hcls : ∀ ev ∈ tr, cls ev = true)
    (hno : ∀ e, cls (Event.storeSave e) = false) :
    hasStoreSave tr = false := by
  rw [hasStoreSave, List.any_eq_false]
  intro ev hev hpred
  have h1 := hcls ev hev
  cases ev <;> simp [isStoreSaveEv] at hpred
  simp [hno] at h1

theorem hasStoreLoad_eq_false (fid : String) (tr : List Event) (cls : Event → Bool)
    (hcls : ∀ ev ∈ tr, cls ev = true)
    (hno : ∀ cid m, cls (Event.storeLoad cid m) = false) :
    hasStoreLoad fid tr = false := by
  rw [hasStoreLoad, List.any_eq_false]
  intro ev hev hpred
  have h1 := hcls ev hev
  cases ev <;> simp at hpred
  simp [hno] at h1

theorem hasRssSave_eq_false (fid : String) (tr : List Event) (cls : Event → Bool)
    (hcls : ∀ ev ∈ tr, cls ev = true)
    (hno : ∀ a b, cls (Event.rssSave a b) = false) :
    hasRssSave fid tr = false := by
  rw [hasRssSave, List.any_eq_false]
  intro ev hev hpred
  have h1 := hcls ev hev
  cases ev <;> simp at hpred
  simp [hno] at h1

theorem hasStoreLoad_append (fid : String) (a b : List Event) :
    hasStoreLoad fid (a ++ b) = (hasStoreLoad fid a || hasStoreLoad fid b) := by
  simp [hasStoreLoad, List.any_append]

theorem hasRssSave_append (fid : String) (a b : List Event) :
    hasRssSave fid (a ++ b) = (hasRssSave fid a || hasRssSave fid b) := by
  simp [hasRssSave, List.any_append]

/-- The per-feed stats delta of one completed feed pass: processed splits
exactly into added plus skipped, and stays within the retention bound. -/
theorem procFeed_stats (S : Service) (O : Oracles) (fi : FeedInfo)
    (d : Stats) (ch : Bool) (tr : List Event)
    (h : procFeed S O fi = .ok d ch tr) :
    d.processed = d.added + d.skipped ∧ d.processed ≤ S.keep fi := by
  unfold procFeed at h
  split at h
  · simp only [FeedRes.ok.injEq] at h
    obtain ⟨rfl, rfl, rfl⟩ := h
    simp [zeroStats]
  · rename_i entries hcg
    cases hloop : procEntries S O fi none entries 0 false zeroEStats with
    | fail er2 tr2 => rw [hloop] at h; simp at h
    | ok p2 c2 st2 tr2 =>
        rw [hloop] at h
        have hc := procEntries_counts S O fi none entries 0 false zeroEStats
          p2 c2 st2 tr2 hloop
        simp only [zeroEStats] at hc
        have h1 : p2 = st2.added + st2.skipped := by omega
        have h2 : p2 ≤ S.keep fi := hc.2 (Nat.zero_le _)
        simp only [] at h
        split at h
        · -- changed: trim, render, publish
          split at h
          · simp only [FeedRes.ok.injEq] at h
            obtain ⟨rfl, rfl, rfl⟩ := h
            exact ⟨h1, h2⟩
          · split at h
            · simp only [FeedRes.ok.injEq] at h
              obtain ⟨rfl, rfl, rfl⟩ := h
              exact ⟨h1, h2⟩
            · simp only [FeedRes.ok.injEq] at h
              obtain ⟨rfl, rfl, rfl⟩ := h
              exact ⟨h1, h2⟩
        · simp only [FeedRes.ok.injEq] at h
          obtain ⟨rfl, rfl, rfl⟩ := h
          exact ⟨h1, h2⟩

@[simp] theorem feedResTrace_ok (st : Stats) (c : Bool) (tr : List Event) :
    (FeedRes.ok st c tr).trace = tr := rfl

@[simp] theorem feedResTrace_fail (er : Err) (tr : List Event) :
    (FeedRes.fail er tr).trace = tr := rfl

@[simp] theorem tickResTrace_ok (st : Stats) (tr : List Event) :
    (TickRes.ok st tr).trace = tr := rfl

@[simp] theorem tickResTrace_fail (er : Err) (tr : List Event) :
    (TickRes.fail er tr).trace = tr := rfl

@[simp] theorem Stats.add_entries (a b : Stats) : (a.add b).entries = a.entries + b.entries := rfl
@[simp] theorem Stats.add_processed (a b : Stats) :
    (a.add b).processed = a.processed + b.processed := rfl
@[simp] theorem Stats.add_added (a b : Stats) : (a.add b).added = a.added + b.added := rfl
@[simp] theorem Stats.add_removed (a b : Stats) : (a.add b).removed = a.removed + b.removed := rfl
@[simp] theorem Stats.add_ignored (a b : Stats) : (a.add b).ignored = a.ignored + b.ignored := rfl
@[simp] theorem Stats.add_skipped (a b : Stats) : (a.add b).skipped = a.skipped + b.skipped := rfl

theorem hasStoreLoad_of_mem (fid : String) (m : Nat) (tr : List Event)
    (h : Event.storeLoad fid m ∈ tr) : hasStoreLoad fid tr = true := by
  rw [hasStoreLoad, List.any_eq_true]
  exact ⟨_, h, by simp⟩

/-- The feed document is rebuilt (RSSFeed invoked, visible as its Store.Load
call) exactly when the changed flag is set, i.e. exactly when some
Store.Save call happened for this feed; the result reaches
RSSFileStore.Save exactly when additionally RSSFeed returned no error. -/
theorem procFeed_changeTrack (S : Service) (O : Oracles) (fi : FeedInfo)
    (d : Stats) (ch : Bool) (tr : List Event)
    (h : procFeed S O fi = .ok d ch tr) :
    hasStoreSave tr = ch ∧ hasStoreLoad fi.id tr = ch ∧
      hasRssSave fi.id tr = (ch && exceptIsOk (RSSFeed S O fi).1) := by
  unfold procFeed at h
  split at h
  · simp only [FeedRes.ok.injEq] at h
    obtain ⟨rfl, rfl, rfl⟩ := h
    refine ⟨?_, ?_, ?_⟩ <;> simp [hasStoreSave, hasStoreLoad, hasRssSave, isStoreSaveEv]
  · rename_i entries hcg
    cases hloop : procEntries S O fi none entries 0 false zeroEStats with
    | fail er2 tr2 => rw [hloop] at h; simp at h
    | ok p2 c2 st2 tr2 =>
        rw [hloop] at h
        have hch : c2 = hasStoreSave tr2 := by
          have := procEntries_changed S O fi none entries 0 false zeroEStats p2 c2 st2 tr2 hloop
          simpa using this
        have hclsL : ∀ ev ∈ tr2, isEntryLoopEvent ev = true := by
          intro ev hev
          exact procEntries_class S O fi none entries 0 false zeroEStats ev
            (by rw [hloop]; exact hev)
        have hL1 : hasStoreLoad fi.id tr2 = false :=
          hasStoreLoad_eq_false fi.id tr2 isEntryLoopEvent hclsL (fun _ _ => rfl)
        have hL2 : hasRssSave fi.id tr2 = false :=
          hasRssSave_eq_false fi.id tr2 isEntryLoopEvent hclsL (fun _ _ => rfl)
        have hclsT : ∀ ev ∈ (removeOld S O fi).2, isTrimEvent ev = true :=
          fun ev hev => removeOld_class S O fi ev hev
        have hT1 : hasStoreSave (removeOld S O fi).2 = false :=
          hasStoreSave_eq_false _ isTrimEvent hclsT (fun _ => rfl)
        have hT2 : hasStoreLoad fi.id (removeOld S O fi).2 = false :=
          hasStoreLoad_eq_false fi.id _ isTrimEvent hclsT (fun _ _ => rfl)
        have hT3 : hasRssSave fi.id (removeOld S O fi).2 = false :=
          hasRssSave_eq_false fi.id _ isTrimEvent hclsT (fun _ _ => rfl)
        have hclsR : ∀ ev ∈ (RSSFeed S O fi).2, isRssGenEvent ev = true :=
          fun ev hev => RSSFeed_class S O fi ev hev
        have hR1 : hasStoreSave (RSSFeed S O fi).2 = false :=
          hasStoreSave_eq_false _ isRssGenEvent hclsR (fun _ => rfl)
        have hR2 : hasStoreLoad fi.id (RSSFeed S O fi).2 = true :=
          hasStoreLoad_of_mem fi.id (S.keep fi) _ (RSSFeed_loads S O fi)
        have hR3 : hasRssSave fi.id (RSSFeed S O fi).2 = false :=
          hasRssSave_eq_false fi.id _ isRssGenEvent hclsR (fun _ _ => rfl)
        simp only [] at h
        split at h
        · rename_i hc2
          have hss : hasStoreSave tr2 = true := by rw [← hch, hc2]
          split at h
          · rename_i er hx
            simp only [FeedRes.ok.injEq] at h
            obtain ⟨rfl, rfl, rfl⟩ := h
            refine ⟨?_, ?_, ?_⟩
            · simp only [List.singleton_append, hasStoreSave_cons, hasStoreSave_append,
                hss, hT1, hR1]
              simp [isStoreSaveEv]
            · simp only [List.singleton_append, hasStoreLoad_cons, hasStoreLoad_append,
                hL1, hT2, hR2]
              simp
            · simp only [List.singleton_append, hasRssSave_cons, hasRssSave_append,
                hL2, hT3, hR3, hx]
              simp [exceptIsOk]
          · rename_i doc hx
            split at h <;> rename_i hrs <;>
              simp only [FeedRes.ok.injEq] at h <;>
              obtain ⟨rfl, rfl, rfl⟩ := h <;> refine ⟨?_, ?_, ?_⟩
            · simp only [List.singleton_append, hasStoreSave_cons, hasStoreSave_append,
                hss, hT1, hR1]
              simp [isStoreSaveEv]
            · simp only [List.singleton_append, hasStoreLoad_cons, hasStoreLoad_append,
                hL1, hT2, hR2]
              simp
            · simp only [List.singleton_append, hasRssSave_cons, hasRssSave_append,
                hL2, hT3, hR3, hx]
              simp [exceptIsOk]
            · simp only [List.singleton_append, hasStoreSave_cons, hasStoreSave_append,
                hss, hT1, hR1]
              simp [isStoreSaveEv]
            · simp only [List.singleton_append, hasStoreLoad_cons, hasStoreLoad_append,
                hL1, hT2, hR2]
              simp
            · simp only [List.singleton_append, hasRssSave_cons, hasRssSave_append,
                hL2, hT3, hR3, hx]
              simp [exceptIsOk]
        · rename_i hc2
          simp only [FeedRes.ok.injEq] at h
          obtain ⟨rfl, rfl, rfl⟩ := h
          have hc2f : c2 = false := by
            cases c2
            · rfl
            · exact absurd rfl hc2
          have hss : hasStoreSave tr2 = false := by rw [← hch, hc2f]
          refine ⟨?_, ?_, ?_⟩
          · simp only [List.singleton_append, hasStoreSave_cons, hss, hc2f]
            simp [isStoreSaveEv]
          · simp only [List.singleton_append, hasStoreLoad_cons, hL1, hc2f]
            simp
          · simp only [List.singleton_append, hasRssSave_cons, hL2, hc2f]
            simp

/-- Every Downloader.Get invocation during one feed pass is for a listed
entry that both duplicate signals classified as new. -/
theorem procFeed_downGet (S : Service) (O : Oracles) (fi : FeedInfo) (v f : String)
    (hev : Event.downGet v f ∈ (procFeed S O fi).trace) :
    ∃ l, O.channelGet fi.id fi.type = Except.ok l ∧
      ∃ e2 ∈ l, e2.videoID = v ∧ dupPositiveB O e2 = false := by
  unfold procFeed at hev
  split at hev
  · simp at hev
  · rename_i entries hcg
    refine ⟨entries, hcg, ?_⟩
    have hdis : Event.downGet v f ∈ (procEntries S O fi none entries 0 false zeroEStats).trace →
        ∃ e2 ∈ entries, e2.videoID = v ∧ dupPositiveB O e2 = false := fun h =>
      procEntries_downGet S O fi none entries 0 false zeroEStats v f h
    have hnoT : Event.downGet v f ∉ (removeOld S O fi).2 := fun h => by
      have := removeOld_class S O fi _ h
      simp [isTrimEvent] at this
    have hnoR : Event.downGet v f ∉ (RSSFeed S O fi).2 := fun h => by
      have := RSSFeed_class S O fi _ h
      simp [isRssGenEvent] at this
    cases hloop : procEntries S O fi none entries 0 false zeroEStats with
    | fail er2 tr2 =>
        rw [hloop] at hev
        simp only [feedResTrace_fail, List.singleton_append, List.mem_cons] at hev
        rcases hev with h | h
        · exact absurd h (by simp)
        · exact hdis (by rw [hloop]; exact h)
    | ok p2 c2 st2 tr2 =>
        rw [hloop] at hev
        simp only [] at hev
        split at hev
        · split at hev
          · simp only [feedResTrace_ok, List.singleton_append, List.mem_cons,
              List.mem_append, List.mem_singleton] at hev
            rcases hev with (((h | h) | h) | h) | h
            · exact absurd h (by simp)
            · exact hdis (by rw [hloop]; exact h)
            · exact absurd h hnoT
            · exact absurd h hnoR
            · exact absurd h (by simp)
          · split at hev <;>
              simp only [feedResTrace_ok, List.singleton_append, List.mem_cons,
                List.mem_append, List.mem_singleton] at hev
            · rcases hev with (((h | h) | h) | h) | (h | h)
              · exact absurd h (by simp)
              · exact hdis (by rw [hloop]; exact h)
              · exact absurd h hnoT
              · exact absurd h hnoR
              · exact absurd h (by simp)
              · exact absurd h (by simp)
            · rcases hev with (((h | h) | h) | h) | h
              · exact absurd h (by simp)
              · exact hdis (by rw [hloop]; exact h)
              · exact absurd h hnoT
              · exact absurd h hnoR
              · exact absurd h (by simp)
        · simp only [feedResTrace_ok, List.singleton_append, List.mem_cons] at hev
          rcases hev with h | h
          · exact absurd h (by simp)
          · exact hdis (by rw [hloop]; exact h)

/-! ## Tick-level lemmas -/

/-- Every event of a tick comes from the accumulator or from one of the
configured feeds' passes. -/
theorem procChannelsAux_origin (S : Service) (O : Oracles) :
    ∀ (l : List FeedInfo) (acc : Stats) (tr : List Event) (ev : Event),
      ev ∈ (procChannelsAux S O l acc tr).trace →
      ev ∈ tr ∨ ∃ fi ∈ l, ev ∈ (procFeed S O fi).trace := by
  intro l
  induction l with
  | nil =>
      intro acc tr ev hev
      simp only [procChannelsAux, tickResTrace_ok] at hev
      exact Or.inl hev
  | cons fi rest ih =>
      intro acc tr ev hev
      simp only [procChannelsAux] at hev
      cases hpf : procFeed S O fi with
      | fail er trF =>
          rw [hpf] at hev
          simp only [tickResTrace_fail] at hev
          rcases List.mem_append.1 hev with h | h
          · exact Or.inl h
          · exact Or.inr ⟨fi, List.mem_cons_self fi rest, by rw [hpf]; exact h⟩
      | ok dd cc trF =>
          rw [hpf] at hev
          rcases ih _ _ _ hev with h | ⟨fj, hj, hje⟩
          · rcases List.mem_append.1 h with h | h
            · exact Or.inl h
            · exact Or.inr ⟨fi, List.mem_cons_self fi rest, by rw [hpf]; exact h⟩
          · exact Or.inr ⟨fj, List.mem_cons_of_mem _ hj, hje⟩

/-- The tick's stats preserve processed = added + skipped. -/
theorem procChannelsAux_stats (S : Service) (O : Oracles) :
    ∀ (l : List FeedInfo) (acc : Stats) (tr : List Event) (st : Stats) (tr2 : List Event),
      procChannelsAux S O l acc tr = .ok st tr2 →
      acc.processed = acc.added + acc.skipped →
      st.processed = st.added + st.skipped := by
  intro l
  induction l with
  | nil =>
      intro acc tr st tr2 h hacc
      simp only [procChannelsAux, TickRes.ok.injEq] at h
      obtain ⟨rfl, rfl⟩ := h
      exact hacc
  | cons fi rest ih =>
      intro acc tr st tr2 h hacc
      simp only [procChannelsAux] at h
      cases hpf : procFeed S O fi with
      | fail er trF => rw [hpf] at h; simp at h
      | ok dd cc trF =>
          rw [hpf] at h
          have hd := procFeed_stats S O fi dd cc trF hpf
          refine ih _ _ _ _ h ?_
          simp [hacc, hd.1]
          omega

theorem LoopRes.pre_pre (a b : List Event) (r : LoopRes) :
    (r.pre a).pre b = r.pre (b ++ a) := by
  cases r <;> simp [LoopRes.pre, List.append_assoc]

/-- Unfolding of one loop iteration for an entry inside the keep bound that
both duplicate checks classify as new: the download-and-persist tail
runs after the two checks' events. -/
theorem procEntries_cons_new (S : Service) (O : Oracles) (fi : FeedInfo) (e : Entry)
    (rest : List Entry) (p : Nat) (c : Bool) (st : EStats)
    (hp : p < S.keep fi) (hex : (O.exist e).1 = false)
    (hnd : ¬((O.checkProcessed e).2.2 = none ∧ (O.checkProcessed e).1 = true)) :
    procEntries S O fi none (e :: rest) p c st =
      (procNewEntry S O fi e (fun q d su => procEntries S O fi none rest q d su) p c
        (bumpEntries st)).pre (checkEvents O e) := by
  simp only [procEntries]
  rw [if_neg (Nat.not_le.mpr hp)]
  simp only [hex]
  rcases hcp2 : (O.checkProcessed e).2.2 with _ | pe
  · rcases hcp1 : (O.checkProcessed e).1 with _ | _
    · simp [hcp2, hcp1]
    · exact absurd ⟨hcp2, hcp1⟩ hnd
  · simp [hcp2]

/-! ## Concrete scenarios for counterexamples and witnesses -/

/-- A base entry; scenario entries override identity fields. -/
def entBase : Entry :=
  { channelID := "chan", videoID := "vid", title := "title", published := 0,
    file := "/data/f.mp3", authorName := "auth", authorURI := "uri",
    linkHref := "link", description := "desc" }

/-- Base collaborator behavior: everything succeeds, stores are empty.
The hash oracle is the identity, standing in for any fixed digest
function. -/
def oraclesBase : Oracles :=
  { channelGet := fun _ _ => .ok [],
    exist := fun _ => (false, none),
    checkProcessed := fun _ => (false, 0, none),
    downGet := fun _ fname => .ok ("/data/" ++ fname),
    save := fun _ => .ok true,
    setProcessed := fun _ => none,
    removeOld := fun _ _ => ([], none),
    osRemove := fun _ => none,
    load := fun _ _ => .ok [],
    osStat := fun _ => some 100,
    rssSave := fun _ _ => none,
    xmlMarshal := fun _ => .ok "<rss/>",
    fmtTime := fun t => toString t,
    sha1hex := fun s => s,
    now := 1000000 }

/-! ## C9 -/

/-- C9: for every identity (channelID, itemID), two invocations of
makeFileName produce the identical filename, derived by hashing the
string channelID ++ "::" ++ itemID.  (The Go fallback to a random UUID
is unreachable: hash.Hash.Write never returns an error.) -/
theorem C9_filename_deterministic (h : String → String) (e1 e2 : Entry)
    (hc : e1.channelID = e2.channelID) (hv : e1.videoID = e2.videoID) :
    makeFileName h e1 = makeFileName h e2 ∧
    makeFileName h e1 = h (e1.channelID ++ "::" ++ e1.videoID) := by
  constructor
  · unfold makeFileName
    rw [hc, hv]
  · rfl

def ent9a : Entry := { entBase with channelID := "C1", videoID := "V1", title := "first run" }

def ent9b : Entry := { entBase with channelID := "C1", videoID := "V1", title := "second run" }

/-- C9 witness: the two runs with identity ("C1","V1") at a concrete hash. -/
theorem C9_filename_deterministic_witness :
    makeFileName (fun s => s) ent9a = makeFileName (fun s => s) ent9b ∧
    makeFileName (fun s => s) ent9a = (fun s => s) (ent9a.channelID ++ "::" ++ ent9a.videoID) :=
  C9_filename_deterministic (fun s => s) ent9a ent9b rfl rfl

/-! ## C10 -/

/-- C10: for every tick that completes without a fatal error, the run
statistics satisfy processed = added + skipped. -/
theorem C10_stats_invariant (S : Service) (O : Oracles) (st : Stats) (tr : List Event)
    (h : procChannels S O = TickRes.ok st tr) :
    st.processed = st.added + st.skipped := by
  unfold procChannels at h
  exact procChannelsAux_stats S O S.feeds zeroStats [] st tr h (by simp [zeroStats])

def fi10 : FeedInfo :=
  { name := "Show10", id := "c10", type := YTType.video, keep := 5, language := "en" }

def entA10 : Entry := { entBase with channelID := "c10", videoID := "va" }
def entB10 : Entry := { entBase with channelID := "c10", videoID := "vb" }
def entC10 : Entry := { entBase with channelID := "c10", videoID := "vc" }

def S10 : Service := { feeds := [fi10], keepPerChannel := 3, rootURL := "http://r" }

/-- Oracles for C10: one duplicate entry, one new entry, one download
failure in a single feed. -/
def O10 : Oracles :=
  { oraclesBase with
    channelGet := fun _ _ => .ok [entA10, entB10, entC10],
    exist := fun e => (e.videoID == "va", none),
    downGet := fun v fname => if v = "vc" then .error "boom" else .ok ("/data/" ++ fname) }

/-- C10 witness: the mixed scenario (one skip, one add, one download
failure) satisfies processed = added + skipped. -/
theorem C10_stats_invariant_witness :
    (procChannels S10 O10).stats.processed =
      (procChannels S10 O10).stats.added + (procChannels S10 O10).stats.skipped :=
  C10_stats_invariant S10 O10 (procChannels S10 O10).stats (procChannels S10 O10).trace
    (by decide)

/-! ## C4 -/

/-- C4: for every feed processed in one tick, the count of entries handled
(added plus skipped-as-duplicate) never exceeds keep(feed), the
per-feed override if positive and otherwise the global default, even
when the listing returns more entries. -/
theorem C4_handled_le_keep (S : Service) (O : Oracles) (fi : FeedInfo)
    (d : Stats) (ch : Bool) (tr : List Event)
    (h : procFeed S O fi = FeedRes.ok d ch tr) :
    d.added + d.skipped ≤ S.keep fi ∧
    (fi.keep > 0 → S.keep fi = fi.keep) ∧
    (fi.keep = 0 → S.keep fi = S.keepPerChannel) := by
  obtain ⟨h1, h2⟩ := procFeed_stats S O fi d ch tr h
  refine ⟨by omega, ?_, ?_⟩
  · intro hk; simp [Service.keep, hk]
  · intro hk; simp [Service.keep, hk]

def fi4 : FeedInfo :=
  { name := "Show4", id := "c4", type := YTType.video, keep := 2, language := "en" }

def entA4 : Entry := { entBase with channelID := "c4", videoID := "wa" }
def entB4 : Entry := { entBase with channelID := "c4", videoID := "wb" }
def entC4 : Entry := { entBase with channelID := "c4", videoID := "wc" }

def S4 : Service := { feeds := [fi4], keepPerChannel := 7, rootURL := "http://r" }

/-- Oracles for C4: the listing returns three new entries while the feed
keeps only two. -/
def O4 : Oracles :=
  { oraclesBase with channelGet := fun _ _ => .ok [entA4, entB4, entC4] }

/-- C4 witness: with keep = 2 and three listed entries, handled stays at 2. -/
theorem C4_handled_le_keep_witness :
    (procFeed S4 O4 fi4).stats.added + (procFeed S4 O4 fi4).stats.skipped ≤ S4.keep fi4 ∧
    (fi4.keep > 0 → S4.keep fi4 = fi4.keep) ∧
    (fi4.keep = 0 → S4.keep fi4 = S4.keepPerChannel) :=
  C4_handled_le_keep S4 O4 fi4 (procFeed S4 O4 fi4).stats (procFeed S4 O4 fi4).changed
    (procFeed S4 O4 fi4).trace (by decide)

/-! ## C5 -/

/-- C5: for every entry for which the existence check returns true or the
processed check returns true (without a lookup error), the download
collaborator is never invoked for that entry's video id in that tick;
the consistency hypothesis says the duplicate signals answer by
identity, i.e. every listed entry carrying this video id is classified
the same way. -/
theorem C5_no_download_for_dup (S : Service) (O : Oracles) (e : Entry)
    (hdup : dupPositiveB O e = true)
    (hcons : ∀ fi ∈ S.feeds, ∀ l, O.channelGet fi.id fi.type = Except.ok l →
      ∀ e2 ∈ l, e2.videoID = e.videoID → dupPositiveB O e2 = true) :
    ∀ f, Event.downGet e.videoID f ∉ (procChannels S O).trace := by
  intro f hmem
  unfold procChannels at hmem
  rcases procChannelsAux_origin S O S.feeds zeroStats [] _ hmem with h | ⟨fi, hfi, hev⟩
  · simp at h
  · obtain ⟨l, hcg, e2, he2, hv, hd⟩ := procFeed_downGet S O fi e.videoID f hev
    exact absurd (hcons fi hfi l hcg e2 he2 hv) (by simp [hd])

def fi5 : FeedInfo :=
  { name := "Show5", id := "c5", type := YTType.video, keep := 3, language := "en" }

def ent5 : Entry := { entBase with channelID := "c5", videoID := "v5" }

def S5 : Service := { feeds := [fi5], keepPerChannel := 3, rootURL := "http://r" }

/-- Oracles for C5: the single listed entry already exists in the store. -/
def O5 : Oracles :=
  { oraclesBase with
    channelGet := fun _ _ => .ok [ent5],
    exist := fun _ => (true, none) }

/-- C5 witness: the stored entry is classified duplicate and no download
happens in the tick. -/
theorem C5_no_download_for_dup_witness :
    dupPositiveB O5 ent5 = true ∧
    (∀ f, Event.downGet ent5.videoID f ∉ (procChannels S5 O5).trace) := by
  refine ⟨by decide, C5_no_download_for_dup S5 O5 ent5 (by decide) ?_⟩
  intro fi hfi l hcg e2 he2 hv
  have hl : l = [ent5] := by
    have : Except.ok [ent5] = Except.ok l := hcg
    exact (Except.ok.inj this).symm
  subst hl
  have he : e2 = ent5 := by simpa using he2
  subst he
  decide

/-! ## C1 -/

theorem not_mem_of_hasRssSave_false (fid doc : String) (tr : List Event)
    (h : hasRssSave fid tr = false) : Event.rssSave fid doc ∉ tr := by
  intro hm
  rw [hasRssSave, List.any_eq_false] at h
  have := h _ hm
  simp at this

def fi1 : FeedInfo :=
  { name := "Show1", id := "c1", type := YTType.video, keep := 2, language := "en" }

def ent1 : Entry := { entBase with channelID := "c1", videoID := "v1" }

def S1 : Service := { feeds := [fi1], keepPerChannel := 5, rootURL := "http://r" }

/-- Oracles for C1: one new entry is listed, saved fine, but Load then
returns zero retained entries for the feed. -/
def O1 : Oracles := { oraclesBase with channelGet := fun _ _ => .ok [ent1] }

/-- C1 counterexample: with zero retained entries in the store
(Load returns the empty list), RSSFeed does return the empty document
and no error, but because the feed was marked changed in this tick the
empty document IS handed to RSSFileStore.Save — the claim's "the
publish collaborator is not invoked" is false. -/
theorem C1_counterexample :
    O1.load fi1.id (S1.keep fi1) = Except.ok [] ∧
    (RSSFeed S1 O1 fi1).1 = Except.ok "" ∧
    Event.rssSave fi1.id "" ∈ (procFeed S1 O1 fi1).trace := by
  refine ⟨rfl, rfl, ?_⟩
  decide

/-- C1 (amended): for every feed whose store holds zero retained entries,
RSSFeed returns the empty document and no error; RSSFileStore.Save is
not invoked for that feed when the feed was not marked changed in the
tick, but when it was marked changed the empty document is handed to
RSSFileStore.Save. -/
theorem C1_amended (S : Service) (O : Oracles) (fi : FeedInfo)
    (h : O.load fi.id (S.keep fi) = Except.ok []) :
    (RSSFeed S O fi).1 = Except.ok "" ∧
    (∀ d tr, procFeed S O fi = FeedRes.ok d false tr →
      ∀ doc, Event.rssSave fi.id doc ∉ tr) ∧
    (∀ d tr, procFeed S O fi = FeedRes.ok d true tr →
      Event.rssSave fi.id "" ∈ tr) := by
  have hrss : (RSSFeed S O fi).1 = Except.ok "" := by
    unfold RSSFeed
    rw [h]
  refine ⟨hrss, ?_, ?_⟩
  · intro d tr hpf doc
    have h3 := (procFeed_changeTrack S O fi d false tr hpf).2.2
    simp only [Bool.false_and] at h3
    exact not_mem_of_hasRssSave_false fi.id doc tr h3
  · intro d tr hpf
    unfold procFeed at hpf
    split at hpf
    · simp at hpf
    · rename_i entries hcg
      cases hloop : procEntries S O fi none entries 0 false zeroEStats with
      | fail er2 tr2 => rw [hloop] at hpf; simp at hpf
      | ok p2 c2 st2 tr2 =>
          rw [hloop] at hpf
          simp only [] at hpf
          split at hpf
          · split at hpf
            · rename_i er hx
              rw [hrss] at hx
              simp at hx
            · rename_i doc hx
              rw [hrss] at hx
              have hdoc : doc = "" := by
                have := Except.ok.inj hx.symm
                exact this
              subst hdoc
              split at hpf <;>
                simp only [FeedRes.ok.injEq] at hpf <;>
                obtain ⟨rfl, -, rfl⟩ := hpf <;> simp
          · simp only [FeedRes.ok.injEq] at hpf
            obtain ⟨-, hfalse, -⟩ := hpf
            exact absurd hfalse (by simp)

/-- C1 witness: a concrete feed with zero retained entries instantiating
the amended claim. -/
theorem C1_amended_witness :
    (RSSFeed S1 O1 fi1).1 = Except.ok "" ∧
    (∀ d tr, procFeed S1 O1 fi1 = FeedRes.ok d false tr →
      ∀ doc, Event.rssSave fi1.id doc ∉ tr) ∧
    (∀ d tr, procFeed S1 O1 fi1 = FeedRes.ok d true tr →
      Event.rssSave fi1.id "" ∈ tr) :=
  C1_amended S1 O1 fi1 rfl

/-! ## C2 -/

def fi2 : FeedInfo :=
  { name := "Show2", id := "c2", type := YTType.video, keep := 2, language := "en" }

def ent2 : Entry := { entBase with channelID := "c2", videoID := "v2" }

def S2 : Service := { feeds := [fi2], keepPerChannel := 5, rootURL := "http://r" }

/-- Oracles for the C2 counterexample: Store.Exist reports an error
alongside false; Store.CheckProcessed succeeds. -/
def O2 : Oracles :=
  { oraclesBase with
    channelGet := fun _ _ => .ok [ent2],
    exist := fun _ => (false, some "db down") }

/-- Oracles for the C2 witness: both lookups report errors. -/
def O2b : Oracles :=
  { oraclesBase with
    channelGet := fun _ _ => .ok [ent2],
    exist := fun _ => (false, some "db down"),
    checkProcessed := fun _ => (true, 5, some "cp err") }

/-- C2 counterexample: a Store.Exist lookup error is treated as not found
(the entry reaches the download step) and the run is not aborted, but,
contrary to the claim, the error is NOT logged: the trace of the feed
pass contains no warning event at all.  (Line 181 of service.go tests
the listing error variable, which is nil there, instead of the Exist
error, so the Exist error is dropped silently.) -/
theorem C2_counterexample :
    (O2.exist ent2).2 = some "db down" ∧
    Event.downGet ent2.videoID (makeFileName O2.sha1hex ent2) ∈ (procFeed S2 O2 fi2).trace ∧
    (procFeed S2 O2 fi2).isOk = true ∧
    (procFeed S2 O2 fi2).trace.filter isWarnEvent = [] := by
  refine ⟨rfl, ?_, ?_, ?_⟩ <;> decide

/-- C2 (amended): if Store.Exist returns false together with an error, the
error is silently ignored (no log line exists for it) and processing
continues; if Store.CheckProcessed then also returns an error, that
error IS logged and the entry is treated as not found: the iteration
proceeds to the download step with exactly one warning, the
CheckProcessed one, and the run is not aborted at the checks. -/
theorem C2_amended (S : Service) (O : Oracles) (fi : FeedInfo) (e : Entry) (rest : List Entry)
    (p : Nat) (c : Bool) (st : EStats) (exErr : Err) (found : Bool) (ts : Int) (procErr : Err)
    (hp : p < S.keep fi)
    (hex : O.exist e = (false, some exErr))
    (hcp : O.checkProcessed e = (found, ts, some procErr)) :
    procEntries S O fi none (e :: rest) p c st =
      (procNewEntry S O fi e (fun q d su => procEntries S O fi none rest q d su) p c
        (bumpEntries st)).pre
        [Event.storeExist e, Event.storeCheckProcessed e,
         Event.warnCheckProcessed e.videoID] := by
  rw [procEntries_cons_new S O fi e rest p c st hp (by rw [hex]) (by rw [hcp]; simp)]
  simp [checkEvents, cpWarn, hcp]

/-- C2 witness: concrete entry with both lookups failing. -/
theorem C2_amended_witness :
    procEntries S2 O2b fi2 none [ent2] 0 false zeroEStats =
      (procNewEntry S2 O2b fi2 ent2
        (fun q d su => procEntries S2 O2b fi2 none [] q d su) 0 false
        (bumpEntries zeroEStats)).pre
        [Event.storeExist ent2, Event.storeCheckProcessed ent2,
         Event.warnCheckProcessed ent2.videoID] :=
  C2_amended S2 O2b fi2 ent2 [] 0 false zeroEStats "db down" true 5 "cp err"
    (by decide) rfl rfl

/-! ## C3 -/

def fi3 : FeedInfo :=
  { name := "Show3", id := "c3", type := YTType.video, keep := 2, language := "en" }

def ent3 : Entry := { entBase with channelID := "c3", videoID := "v3" }

def S3 : Service := { feeds := [fi3], keepPerChannel := 5, rootURL := "http://r" }

/-- Oracles for the C3 counterexample: the new entry's Save reports
"not newly inserted" (a storage-level duplicate), so the retained set
did not change; the trim removes nothing; Load returns a stored entry
so a real document is rendered. -/
def O3 : Oracles :=
  { oraclesBase with
    channelGet := fun _ _ => .ok [ent3],
    save := fun _ => .ok false,
    load := fun _ _ => .ok [ent3] }

/-- C3 counterexample: in a tick in which no Save call inserted a new
entry and the trim removed nothing — i.e. the feed's retained set did
not change — the feed document is nevertheless regenerated and handed
to RSSFileStore.Save, because service.go line 231 sets the changed flag
after every non-error Save regardless of its inserted-new result. -/
theorem C3_counterexample :
    retainedSetChangedB O3 fi3.id (procFeed S3 O3 fi3).trace = false ∧
    hasRssSave fi3.id (procFeed S3 O3 fi3).trace = true := by
  constructor <;> decide

/-- C3 (amended): the feed document is regenerated (RSSFeed invoked,
visible as its Store.Load call) iff at least one Store.Save call for
the feed completed without error in that tick — equivalently iff the
per-feed changed flag is set — and the rendered result is handed to
RSSFileStore.Save iff additionally RSSFeed returned without error. -/
theorem C3_amended (S : Service) (O : Oracles) (fi : FeedInfo)
    (d : Stats) (ch : Bool) (tr : List Event)
    (h : procFeed S O fi = FeedRes.ok d ch tr) :
    hasStoreLoad fi.id tr = ch ∧
    hasStoreSave tr = ch ∧
    hasRssSave fi.id tr = (ch && exceptIsOk (RSSFeed S O fi).1) := by
  obtain ⟨h1, h2, h3⟩ := procFeed_changeTrack S O fi d ch tr h
  exact ⟨h2, h1, h3⟩

/-- C3 witness: the amended iff at the counterexample's concrete feed. -/
theorem C3_amended_witness :
    hasStoreLoad fi3.id (procFeed S3 O3 fi3).trace = (procFeed S3 O3 fi3).changed ∧
    hasStoreSave (procFeed S3 O3 fi3).trace = (procFeed S3 O3 fi3).changed ∧
    hasRssSave fi3.id (procFeed S3 O3 fi3).trace =
      ((procFeed S3 O3 fi3).changed && exceptIsOk (RSSFeed S3 O3 fi3).1) :=
  C3_amended S3 O3 fi3 (procFeed S3 O3 fi3).stats (procFeed S3 O3 fi3).changed
    (procFeed S3 O3 fi3).trace (by decide)

/-! ## C6 -/

/-- C6: a Store.Save error for a newly downloaded entry aborts the whole
tick immediately — the iteration ends in a failure whose trace stops at
that Save call, so no further entries are processed (part 1); a failing
feed pass aborts the tick with no events from the remaining feeds
(part 2); the wrapped error propagates to the Driver, which stops with
it (part 3).  A Downloader.Get error instead only logs a warning,
counts the entry as ignored, and continues with the remaining entries
without counting it as handled: the processed counter is unchanged
(part 4). -/
theorem C6_persist_fatal_download_soft (S : Service) (O : Oracles) :
    (∀ (fi : FeedInfo) (e : Entry) (rest : List Entry) (p : Nat) (c : Bool) (st : EStats)
        (cpf : Bool) (cpts : Int) (cpe : Option Err) (file : String) (saveErr : Err),
        p < S.keep fi →
        (O.exist e).1 = false →
        O.checkProcessed e = (cpf, cpts, cpe) →
        ¬(cpe = none ∧ cpf = true) →
        O.downGet e.videoID (makeFileName O.sha1hex e) = Except.ok file →
        O.save (mutateEntry O.now fi e file) = Except.error saveErr →
        procEntries S O fi none (e :: rest) p c st =
          LoopRes.fail
            (wrap ("failed to save entry " ++ entryDump (mutateEntry O.now fi e file)) saveErr)
            ([Event.storeExist e, Event.storeCheckProcessed e] ++ cpWarn cpe e.videoID ++
             [Event.downGet e.videoID (makeFileName O.sha1hex e),
              Event.storeSave (mutateEntry O.now fi e file)])) ∧
    (∀ (fi : FeedInfo) (restFeeds : List FeedInfo) (acc : Stats) (tr trF : List Event)
        (er : Err),
        procFeed S O fi = FeedRes.fail er trF →
        procChannelsAux S O (fi :: restFeeds) acc tr = TickRes.fail er (tr ++ trF)) ∧
    (∀ (er : Err) (tr : List Event),
        procChannels S O = TickRes.fail er tr →
        Do S O = Except.error (wrap "failed to process channels" er)) ∧
    (∀ (fi : FeedInfo) (e : Entry) (rest : List Entry) (p : Nat) (c : Bool) (st : EStats)
        (cpf : Bool) (cpts : Int) (cpe : Option Err) (dErr : Err),
        p < S.keep fi →
        (O.exist e).1 = false →
        O.checkProcessed e = (cpf, cpts, cpe) →
        ¬(cpe = none ∧ cpf = true) →
        O.downGet e.videoID (makeFileName O.sha1hex e) = Except.error dErr →
        procEntries S O fi none (e :: rest) p c st =
          (procEntries S O fi none rest p c (bumpIgnored (bumpEntries st))).pre
            ([Event.storeExist e, Event.storeCheckProcessed e] ++ cpWarn cpe e.videoID ++
             [Event.downGet e.videoID (makeFileName O.sha1hex e),
              Event.warnDownload e.videoID])) := by
  refine ⟨?_, ?_, ?_, ?_⟩
  · intro fi e rest p c st cpf cpts cpe file saveErr hp hex hcp hnd hdl hsv
    rw [procEntries_cons_new S O fi e rest p c st hp hex (by rw [hcp]; simpa using hnd)]
    unfold procNewEntry
    rw [hdl]
    simp only [hsv, LoopRes.pre, checkEvents, cpWarn, hcp, List.append_assoc]
  · intro fi restFeeds acc tr trF er hpf
    simp only [procChannelsAux, hpf]
  · intro er tr h
    simp only [Do, h]
  · intro fi e rest p c st cpf cpts cpe dErr hp hex hcp hnd hdl
    rw [procEntries_cons_new S O fi e rest p c st hp hex (by rw [hcp]; simpa using hnd)]
    unfold procNewEntry
    rw [hdl]
    rw [LoopRes.pre_pre]
    simp only [checkEvents, cpWarn, hcp, List.append_assoc]

def fi6 : FeedInfo :=
  { name := "Show6", id := "c6", type := YTType.video, keep := 2, language := "en" }

def ent6 : Entry := { entBase with channelID := "c6", videoID := "v6" }

def S6 : Service := { feeds := [fi6], keepPerChannel := 5, rootURL := "http://r" }

/-- Oracles for C6, persistence failure: Store.Save errors. -/
def O6a : Oracles :=
  { oraclesBase with
    channelGet := fun _ _ => .ok [ent6],
    save := fun _ => .error "disk full" }

/-- Oracles for C6, download failure: Downloader.Get errors. -/
def O6b : Oracles :=
  { oraclesBase with
    channelGet := fun _ _ => .ok [ent6],
    downGet := fun _ _ => .error "no audio" }

/-- The fatal message of the C6 witness scenario. -/
def er6 : Err :=
  wrap ("failed to save entry " ++ entryDump (mutateEntry O6a.now fi6 ent6 "/data/c6::v6"))
    "disk full"

/-- The loop trace of the C6 witness scenario up to the fatal Save. -/
def trXfail6 : List Event :=
  [Event.storeExist ent6, Event.storeCheckProcessed ent6] ++ cpWarn none ent6.videoID ++
  [Event.downGet ent6.videoID (makeFileName O6a.sha1hex ent6),
   Event.storeSave (mutateEntry O6a.now fi6 ent6 "/data/c6::v6")]

/-- C6 witness: the persistence failure aborts loop, tick and driver; the
download failure merely logs and continues. -/
theorem C6_persist_fatal_download_soft_witness :
    (procEntries S6 O6a fi6 none [ent6] 0 false zeroEStats = LoopRes.fail er6 trXfail6) ∧
    (procChannelsAux S6 O6a [fi6] zeroStats [] =
      TickRes.fail er6 ([] ++ ([Event.channelGet fi6.id fi6.type] ++ trXfail6))) ∧
    (Do S6 O6a = Except.error (wrap "failed to process channels" er6)) ∧
    (procEntries S6 O6b fi6 none [ent6] 0 false zeroEStats =
      (procEntries S6 O6b fi6 none [] 0 false (bumpIgnored (bumpEntries zeroEStats))).pre
        ([Event.storeExist ent6, Event.storeCheckProcessed ent6] ++ cpWarn none ent6.videoID ++
         [Event.downGet ent6.videoID (makeFileName O6b.sha1hex ent6),
          Event.warnDownload ent6.videoID])) := by
  refine ⟨?_, ?_, ?_, ?_⟩
  · exact (C6_persist_fatal_download_soft S6 O6a).1 fi6 ent6 [] 0 false zeroEStats
      false 0 none "/data/c6::v6" "disk full" (by decide) rfl rfl (by simp) rfl rfl
  · exact (C6_persist_fatal_download_soft S6 O6a).2.1 fi6 [] zeroStats []
      ([Event.channelGet fi6.id fi6.type] ++ trXfail6) er6 (by decide)
  · exact (C6_persist_fatal_download_soft S6 O6a).2.2.1 er6
      ([] ++ ([Event.channelGet fi6.id fi6.type] ++ trXfail6)) (by decide)
  · exact (C6_persist_fatal_download_soft S6 O6b).2.2.2 fi6 ent6 [] 0 false zeroEStats
      false 0 none "no audio" (by decide) rfl rfl (by simp) rfl

/-! ## C7 -/

/-- C7: for every feed, the trimmer asks the store to remove all but the
most recent keep(feed)+1 entries; it attempts an os.Remove on every
returned backing file — the attempt list does not depend on whether the
metadata removal reported an error, and a failing deletion does not
stop the remaining attempts; the returned count is the number of
deletions that succeeded; and each feed marked changed in a tick gets
exactly such a trim call. -/
theorem C7_trimmer (S : Service) (O : Oracles) (fi : FeedInfo) :
    Event.storeRemoveOld fi.id (S.keep fi + 1) ∈ (removeOld S O fi).2 ∧
    (∀ f ∈ (O.removeOld fi.id (S.keep fi + 1)).1, Event.osRemove f ∈ (removeOld S O fi).2) ∧
    (removeOld S O fi).1 =
      ((O.removeOld fi.id (S.keep fi + 1)).1.filter (fun f => (O.osRemove f).isNone)).length ∧
    (∀ d tr, procFeed S O fi = FeedRes.ok d true tr →
      Event.storeRemoveOld fi.id (S.keep fi + 1) ∈ tr) := by
  refine ⟨removeOld_asks S O fi, ?_, ?_, ?_⟩
  · intro f hf
    unfold removeOld
    simp only [List.mem_append]
    right
    exact removeFiles_attempts O _ f hf
  · exact removeFiles_count O _
  · intro d tr hpf
    unfold procFeed at hpf
    split at hpf
    · simp at hpf
    · rename_i entries hcg
      cases hloop : procEntries S O fi none entries 0 false zeroEStats with
      | fail er2 tr2 => rw [hloop] at hpf; simp at hpf
      | ok p2 c2 st2 tr2 =>
          rw [hloop] at hpf
          simp only [] at hpf
          split at hpf
          · split at hpf
            · simp only [FeedRes.ok.injEq] at hpf
              obtain ⟨-, -, rfl⟩ := hpf
              simp only [List.mem_append]
              exact Or.inl (Or.inl (Or.inr (removeOld_asks S O fi)))
            · split at hpf <;>
                simp only [FeedRes.ok.injEq] at hpf <;>
                obtain ⟨-, -, rfl⟩ := hpf <;>
                simp only [List.mem_append]
              · exact Or.inl (Or.inl (Or.inr (removeOld_asks S O fi)))
              · exact Or.inl (Or.inl (Or.inr (removeOld_asks S O fi)))
          · simp only [FeedRes.ok.injEq] at hpf
            obtain ⟨-, hfalse, -⟩ := hpf
            exact absurd hfalse (by simp)

def fi7 : FeedInfo :=
  { name := "Show7", id := "c7", type := YTType.video, keep := 2, language := "en" }

def ent7 : Entry := { entBase with channelID := "c7", videoID := "v7" }

def S7 : Service := { feeds := [fi7], keepPerChannel := 5, rootURL := "http://r" }

/-- Oracles for C7: the metadata removal reports an error yet returns two
files; deleting the first file fails, the second succeeds. -/
def O7 : Oracles :=
  { oraclesBase with
    channelGet := fun _ _ => .ok [ent7],
    removeOld := fun _ _ => (["/data/old1.mp3", "/data/old2.mp3"], some "meta err"),
    osRemove := fun f => if f = "/data/old1.mp3" then some "busy" else none,
    load := fun _ _ => .ok [ent7] }

/-- C7 witness: both files get deletion attempts despite the metadata
error and the first deletion failing; exactly one removal is counted;
the changed feed pass contains the trim call. -/
theorem C7_trimmer_witness :
    Event.storeRemoveOld fi7.id (S7.keep fi7 + 1) ∈ (removeOld S7 O7 fi7).2 ∧
    (∀ f ∈ (O7.removeOld fi7.id (S7.keep fi7 + 1)).1,
      Event.osRemove f ∈ (removeOld S7 O7 fi7).2) ∧
    (removeOld S7 O7 fi7).1 =
      ((O7.removeOld fi7.id (S7.keep fi7 + 1)).1.filter
        (fun f => (O7.osRemove f).isNone)).length ∧
    Event.storeRemoveOld fi7.id (S7.keep fi7 + 1) ∈ (procFeed S7 O7 fi7).trace := by
  have h := C7_trimmer S7 O7 fi7
  exact ⟨h.1, h.2.1, h.2.2.1,
    h.2.2.2 (procFeed S7 O7 fi7).stats (procFeed S7 O7 fi7).trace (by decide)⟩

/-! ## C8 -/

def fi8 : FeedInfo :=
  { name := "Show8", id := "c8", type := YTType.video, keep := 2, language := "en" }

/-- Counterexample entry: published 10 days in the future of the tick's
clock (864000 seconds after now = 1000000). -/
def ent8 : Entry :=
  { entBase with channelID := "c8", videoID := "v8", title := "Show8: ep", published := 1864000 }

def S8 : Service := { feeds := [fi8], keepPerChannel := 5, rootURL := "http://r" }

def O8 : Oracles := { oraclesBase with channelGet := fun _ _ => .ok [ent8] }

/-- C8 counterexample: an original publication timestamp 10 days in the
FUTURE is not within 24 hours of now, so the claim says it is kept
unchanged; the code's test is the signed `time.Since(published) < 24h`,
which every future timestamp satisfies, so the saved entry's timestamp
is overwritten with now. -/
theorem C8_counterexample :
    specWithin24 O8.now ent8.published = false ∧
    resetPublished O8.now ent8.published = O8.now ∧
    Event.storeSave (mutateEntry O8.now fi8 ent8 "/data/c8::v8") ∈
      (procFeed S8 O8 fi8).trace ∧
    (mutateEntry O8.now fi8 ent8 "/data/c8::v8").published = O8.now ∧
    ent8.published ≠ O8.now := by
  refine ⟨?_, ?_, ?_, ?_, ?_⟩ <;> decide

/-- The persisted entry's publication timestamp is exactly the normalized
one; the title mutation does not touch it. -/
theorem mutateEntry_published (now : Int) (fi : FeedInfo) (e : Entry) (file : String) :
    (mutateEntry now fi e file).published = resetPublished now e.published := by
  simp only [mutateEntry]
  split <;> rfl

/-- C8 (amended): for every successfully downloaded entry, the persisted
entry's publication timestamp is overwritten with now exactly when the
original timestamp is less than 24 hours BEFORE now — including every
future timestamp — and kept unchanged when it is 24 hours or more in
the past; the Store.Save call receives the entry so normalized. -/
theorem C8_amended (S : Service) (O : Oracles) (fi : FeedInfo) (e : Entry) (rest : List Entry)
    (p : Nat) (c : Bool) (st : EStats) (file : String)
    (hp : p < S.keep fi) (hex : (O.exist e).1 = false)
    (hnd : ¬((O.checkProcessed e).2.2 = none ∧ (O.checkProcessed e).1 = true))
    (hdl : O.downGet e.videoID (makeFileName O.sha1hex e) = Except.ok file) :
    Event.storeSave (mutateEntry O.now fi e file) ∈
      (procEntries S O fi none (e :: rest) p c st).trace ∧
    (O.now - e.published < day → (mutateEntry O.now fi e file).published = O.now) ∧
    (day ≤ O.now - e.published → (mutateEntry O.now fi e file).published = e.published) := by
  refine ⟨?_, ?_, ?_⟩
  · rw [procEntries_cons_new S O fi e rest p c st hp hex hnd]
    rw [LoopRes.trace_pre]
    refine List.mem_append.2 (Or.inr ?_)
    unfold procNewEntry
    simp only [hdl]
    cases hsv : O.save (mutateEntry O.now fi e file) with
    | error serr =>
        simp only [hsv]
        simp
    | ok okFlag =>
        simp only [hsv, LoopRes.trace_pre]
        refine List.mem_append.2 (Or.inl ?_)
        simp
  · intro hlt
    rw [mutateEntry_published]
    simp [resetPublished, hlt]
  · intro hge
    rw [mutateEntry_published]
    simp only [resetPublished]
    rw [if_neg (by omega)]

/-- Witness entries for C8: published 2 hours before now, and 10 days
before now. -/
def ent8b : Entry :=
  { entBase with channelID := "c8", videoID := "v8", title := "Show8: ep", published := 992800 }

def ent8c : Entry :=
  { entBase with channelID := "c8", videoID := "v8", title := "Show8: ep", published := 136000 }

/-- C8 witness: a 2-hours-old timestamp is overwritten with now, a
10-days-old one is kept, both on the persisted entry. -/
theorem C8_amended_witness :
    (Event.storeSave (mutateEntry O8.now fi8 ent8b "/data/c8::v8") ∈
      (procEntries S8 O8 fi8 none [ent8b] 0 false zeroEStats).trace ∧
     (O8.now - ent8b.published < day →
       (mutateEntry O8.now fi8 ent8b "/data/c8::v8").published = O8.now) ∧
     (day ≤ O8.now - ent8b.published →
       (mutateEntry O8.now fi8 ent8b "/data/c8::v8").published = ent8b.published)) ∧
    (Event.storeSave (mutateEntry O8.now fi8 ent8c "/data/c8::v8") ∈
      (procEntries S8 O8 fi8 none [ent8c] 0 false zeroEStats).trace ∧
     (O8.now - ent8c.published < day →
       (mutateEntry O8.now fi8 ent8c "/data/c8::v8").published = O8.now) ∧
     (day ≤ O8.now - ent8c.published →
       (mutateEntry O8.now fi8 ent8c "/data/c8::v8").published = ent8c.published)) :=
  ⟨C8_amended S8 O8 fi8 ent8b [] 0 false zeroEStats "/data/c8::v8"
      (by decide) rfl (by decide) rfl,
   C8_amended S8 O8 fi8 ent8c [] 0 false zeroEStats "/data/c8::v8"
      (by decide) rfl (by decide) rfl⟩

end Youtube
